import Mathlib

/-!
# MusicAPI: a verification development

A shallow embedding of the song library service (Go, gin + sqlx over PostgreSQL):

* `models/song.go`                 : the `Song` record;
* `pkg/handler/list_songs.go`      : the HTTP handlers;
* `pkg/service/music_list.go`      : the pass-through service;
* `pkg/repository/song_postgres.go`: the storage access functions.

Go strings are embedded as Lean strings (sequences of code points): every separator the
program searches for is ASCII, so on valid UTF-8 the byte-level functions of package
`strings` agree with the code-point-level ones below.  Go `int` is the 64-bit signed
integer; it is embedded as `Int` with explicit wrap-around (`wrapInt`).
-/

namespace MusicAPI

/-! ## models/song.go -/

/-- The record `models.Song`. -/
structure Song where
  ID : Int
  GroupName : String
  SongName : String
  ReleaseDate : String
  Text : String
  Lyrics : String
  Link : String
deriving DecidableEq, Inhabited

/-! ## Go runtime: machine integers, errors, slices -/

/-- Smallest value of Go `int` on a 64-bit platform. -/
def minInt : Int := -(2 ^ 63)

/-- Largest value of Go `int` on a 64-bit platform. -/
def maxInt : Int := 2 ^ 63 - 1

/-- Two's complement wrap-around of a mathematical integer into Go `int`. -/
def wrapInt (x : Int) : Int := (x + 2 ^ 63) % 2 ^ 64 - 2 ^ 63

/-- The value is representable as a Go `int`. -/
def InIntRange (x : Int) : Prop := minInt ≤ x ∧ x ≤ maxInt

instance (x : Int) : Decidable (InIntRange x) := by
  unfold InIntRange; exact inferInstance

/-- The two failure kinds of package `strconv` (`ErrSyntax`, `ErrRange`). -/
inductive NumErrKind where
  | invalid
  | range
deriving DecidableEq

/-- Go `error` values that occur in the program. -/
inductive GoError where
  /-- Result of `fmt.Errorf(format, arg)` with one integer argument. -/
  | errorf (format : String) (arg : Int)
  /-- A `*strconv.NumError` for the input `num`. -/
  | numError (num : String) (kind : NumErrKind)
  /-- An error reported by the database driver (connectivity, constraint, query failure). -/
  | driver (msg : String)
  /-- The sentinel `sql.ErrNoRows`. -/
  | errNoRows
  /-- A value of the wrong kind handed to `Scan`. -/
  | scan (msg : String)
  /-- A decoding or validation error of the gin JSON binding. -/
  | binding (msg : String)
deriving DecidableEq

/-- The slice expression `xs[lo:hi]` on a slice whose capacity equals its length:
`none` stands for the run-time panic "slice bounds out of range". -/
def sliceRange {α : Type} (xs : List α) (lo hi : Int) : Option (List α) :=
  if 0 ≤ lo ∧ lo ≤ hi ∧ hi ≤ (xs.length : Int) then
    some ((xs.drop lo.toNat).take (hi.toNat - lo.toNat))
  else
    none

/-! ## Package strconv -/

namespace strconv

/-- Value of a decimal digit, `none` for any other character. -/
def digitVal (c : Char) : Option Nat :=
  if 48 ≤ c.toNat ∧ c.toNat ≤ 57 then some (c.toNat - 48) else none

/-- Largest value of `uint64`. -/
def maxUint64 : Nat := 2 ^ 64 - 1

/-- The digit loop of `strconv.ParseUint` for base 10 and 64 bits.  Every character must
be a decimal digit, otherwise the result is a syntax error; the loop returns a range error
as soon as the accumulated number leaves `uint64` (first when `n * 10` would, then when
`n * 10 + d` would), before it looks at any later character. -/
def parseDigits : List Char → Nat → Except NumErrKind Nat
  | [], n => .ok n
  | c :: cs, n =>
    match digitVal c with
    | none => .error .invalid
    | some d =>
      if n ≥ maxUint64 / 10 + 1 then .error .range
      else if n * 10 + d > maxUint64 then .error .range
      else parseDigits cs (n * 10 + d)

/-- The function `strconv.Atoi`, that is `ParseInt(s, 10, 0)`: an optional sign, then the
digit loop of `ParseUint`.  (For inputs shorter than 19 bytes Go runs a loop of its own,
which cannot overflow and gives the same result.)  The result is the pair Go returns: on a
syntax error the value is 0; on a range error, whether raised by the digit loop or by the
comparison with the bounds of `int`, the value is the largest `int`, or the smallest
after a minus sign. -/
def Atoi (s : String) : Int × Option GoError :=
  match s.data with
  | [] => (0, some (.numError s .invalid))
  | c :: cs =>
    let ds := if c = '-' ∨ c = '+' then cs else c :: cs
    match ds with
    | [] => (0, some (.numError s .invalid))
    | _ :: _ =>
      match parseDigits ds 0 with
      | .error .invalid => (0, some (.numError s .invalid))
      | .error .range =>
        if c = '-' then (minInt, some (.numError s .range))
        else (maxInt, some (.numError s .range))
      | .ok un =>
        if c = '-' then
          if un > 2 ^ 63 then (minInt, some (.numError s .range)) else (-(un : Int), none)
        else
          if un ≥ 2 ^ 63 then (maxInt, some (.numError s .range)) else ((un : Int), none)

end strconv

/-! ## Package strings -/

namespace strings

/-- Leftmost, non-overlapping replacement of a non-empty `old` by `new`; the counter is the
number of characters of the current match still to be skipped. -/
def replaceAux (old new : List Char) : Nat → List Char → List Char
  | _, [] => []
  | k + 1, _ :: cs => replaceAux old new k cs
  | 0, c :: cs =>
    if old.isPrefixOf (c :: cs) then new ++ replaceAux old new (old.length - 1) cs
    else c :: replaceAux old new 0 cs

/-- The function `strings.ReplaceAll`.  For an empty `old` the replacement is inserted at
the beginning and after every code point. -/
def ReplaceAll (s old new : String) : String :=
  match old.data with
  | [] => String.mk (new.data ++ s.data.flatMap (fun c => c :: new.data))
  | _ :: _ => String.mk (replaceAux old.data new.data 0 s.data)

/-- Leftmost, non-overlapping split at a non-empty separator; `acc` is the current piece,
reversed, and the counter the number of separator characters still to be skipped. -/
def splitAux (sep : List Char) : Nat → List Char → List Char → List (List Char)
  | _, acc, [] => [acc.reverse]
  | k + 1, acc, _ :: cs => splitAux sep k acc cs
  | 0, acc, c :: cs =>
    if sep.isPrefixOf (c :: cs) then acc.reverse :: splitAux sep (sep.length - 1) [] cs
    else splitAux sep 0 (c :: acc) cs

/-- The function `strings.Split`.  For an empty separator the string is exploded into its
code points. -/
def Split (s sep : String) : List String :=
  match sep.data with
  | [] => s.data.map (fun c => String.mk [c])
  | _ :: _ => (splitAux sep.data 0 [] s.data).map String.mk

/-- The function `strings.HasSuffix`. -/
def HasSuffix (s suffix : String) : Bool :=
  suffix.data.isSuffixOf s.data

/-- The function `strings.TrimSuffix`. -/
def TrimSuffix (s suffix : String) : String :=
  if HasSuffix s suffix then String.mk (s.data.take (s.data.length - suffix.data.length))
  else s

/-- The function `strings.Join`. -/
def Join (elems : List String) (sep : String) : String :=
  String.mk (List.intercalate sep.data (elems.map String.data))

end strings

/-! ## gin: request context and responses -/

/-- A JSON document, as read by `encoding/json`.  Numbers keep their literal. -/
inductive JSON where
  | null
  | bool (b : Bool)
  | number (literal : String)
  | string (s : String)
  | array (items : List JSON)
  | object (members : List (String × JSON))

/-- The part of `*gin.Context` the handlers read: path parameters, the query arguments in
their order of appearance, and the request body (`none` when it is not well-formed JSON,
otherwise the first JSON value of the stream). -/
structure Context where
  Params : List (String × String)
  QueryArgs : List (String × String)
  Body : Option JSON

/-- First value bound to `key` in an association list. -/
def lookupFirst (key : String) : List (String × String) → Option String
  | [] => none
  | (k, v) :: rest => if k = key then some v else lookupFirst key rest

/-- The method `c.Param`: the value of the path parameter, or the empty string. -/
def Context.Param (c : Context) (key : String) : String :=
  (lookupFirst key c.Params).getD ""

/-- The method `c.Query`: the first value of the query key, or the empty string. -/
def Context.Query (c : Context) (key : String) : String :=
  (lookupFirst key c.QueryArgs).getD ""

/-- The method `c.DefaultQuery`: the first value of the query key when the key is present
(even with an empty value), otherwise the default. -/
def Context.DefaultQuery (c : Context) (key defaultValue : String) : String :=
  (lookupFirst key c.QueryArgs).getD defaultValue

/-- The value `service.SongDetail`. -/
structure SongDetail where
  ReleaseDate : String
  Text : String
  Link : String
deriving DecidableEq

/-- What a handler writes as the response body. -/
inductive Payload where
  /-- A `gin.H` object with string values, rendered as JSON. -/
  | H (members : List (String × String))
  /-- A JSON array of songs. -/
  | songs (list : List Song)
  /-- A JSON song detail object. -/
  | detail (d : SongDetail)
  /-- A plain string written by `c.String`. -/
  | text (s : String)
deriving DecidableEq

/-- An HTTP response: status code, content type and body. -/
structure Response where
  Status : Nat
  ContentType : String
  Body : Payload
deriving DecidableEq

/-- Result of running a handler: a response was written, or the handler panicked.  A panic
carries the `Content-Type` header that was set on the response by then (the empty string
when none was). -/
inductive Outcome where
  | responded (r : Response)
  | panicked (msg : String) (contentType : String)
deriving DecidableEq

/-- HTTP status codes of package `net/http` used by the handlers. -/
def StatusOK : Nat := 200
def StatusCreated : Nat := 201
def StatusBadRequest : Nat := 400
def StatusInternalServerError : Nat := 500

/-- The method `c.JSON(code, gin.H{...})`. -/
def respondH (code : Nat) (members : List (String × String)) : Outcome :=
  .responded ⟨code, "application/json; charset=utf-8", .H members⟩

/-- The method `c.String(code, s)`. -/
def respondString (code : Nat) (s : String) : Outcome :=
  .responded ⟨code, "text/plain; charset=utf-8", .text s⟩

/-! ## pkg/service/service.go: the interface the handlers call -/

/-- Result of a call that returns a value or an error, or panics. -/
inductive Attempt (α : Type) where
  | ok (a : α)
  | error (err : GoError)
  | panicked (msg : String)

/-- The interface `service.Song` over a state `σ` (the store behind the service).  Every
method returns its Go result together with the state after the call; `GetSongs`, the one
method whose implementation allocates by a caller-supplied size, may also panic. -/
structure Service (σ : Type) where
  AddSong : Song → σ → Option GoError × σ
  GetSongs : String → Int → Int → σ → Attempt (List Song) × σ
  GetSongText : Int → σ → Except GoError String × σ
  UpdateSong : Int → Song → σ → Option GoError × σ
  DeleteSong : Int → σ → Option GoError × σ

/-! ## pkg/handler/list_songs.go -/

namespace Handler

/-- The function `splitVerses`: split at the four-character marker backslash, n, backslash,
n, then trim a trailing two-character marker backslash, n from every piece. -/
def splitVerses (text : String) : List String :=
  (strings.Split text "\\n\\n").map (fun v => strings.TrimSuffix v "\\n")

/-- Lines 161-178 of `GetSongText`: the response computed from the fetched text.  The
header `Content-Type` is set on line 177, before the slice expression of line 178 is
evaluated. -/
def textPage (text : String) (page pageSize : Int) : Outcome :=
  let text := strings.ReplaceAll text "\\n" "\n"
  let verses := splitVerses text
  let start := wrapInt (wrapInt (page - 1) * pageSize)
  let stop := wrapInt (start + pageSize)
  if start ≥ (verses.length : Int) then
    respondH StatusOK [("text", "")]
  else
    let stop := if stop > (verses.length : Int) then (verses.length : Int) else stop
    match sliceRange verses start stop with
    | none => .panicked "slice bounds out of range" "text/plain; charset=utf-8"
    | some vs => respondString StatusOK (strings.Join vs "\n\n")

/-- The handler `GetSongText`. -/
def GetSongText {σ : Type} (services : Service σ) (c : Context) (st : σ) : Outcome × σ :=
  match strconv.Atoi (c.Param "id") with
  | (_, some _) => (respondH StatusBadRequest [("error", "Invalid song ID")], st)
  | (id, none) =>
    match strconv.Atoi (c.DefaultQuery "page" "1") with
    | (_, some _) => (respondH StatusBadRequest [("error", "Invalid page number")], st)
    | (page, none) =>
      match strconv.Atoi (c.DefaultQuery "limit" "5") with
      | (_, some _) => (respondH StatusBadRequest [("error", "Invalid page size")], st)
      | (pageSize, none) =>
        match services.GetSongText id st with
        | (.error _, st1) =>
          (respondH StatusInternalServerError [("error", "Failed to get text")], st1)
        | (.ok text, st1) => (textPage text page pageSize, st1)

end Handler


/-! ## gin JSON binding (`c.ShouldBindJSON`) for `models.Song` -/

namespace binding

/-- Simple case folding of `strings.EqualFold`, restricted to the code points whose fold
orbit contains an ASCII letter: the capitals A-Z, the Kelvin sign U+212A (folds with k) and
the long s U+017F (folds with s).  The JSON field names of `Song` are ASCII, so on them
this is exactly the folding `encoding/json` applies. -/
def foldRune (c : Char) : Char :=
  if 65 ≤ c.toNat ∧ c.toNat ≤ 90 then Char.ofNat (c.toNat + 32)
  else if c.toNat = 0x212A then 'k'
  else if c.toNat = 0x017F then 's'
  else c

/-- The function `strings.EqualFold` (see `foldRune`). -/
def EqualFold (a b : String) : Bool :=
  a.data.map foldRune == b.data.map foldRune

/-- The exported fields of `models.Song`. -/
inductive SongField where
  | ID | GroupName | SongName | ReleaseDate | Text | Lyrics | Link
deriving DecidableEq

/-- The `json:"..."` tag of every field. -/
def SongField.jsonName : SongField → String
  | .ID => "id"
  | .GroupName => "group"
  | .SongName => "song"
  | .ReleaseDate => "releaseDate"
  | .Text => "text"
  | .Lyrics => "lyrics"
  | .Link => "link"

/-- All fields, in declaration order. -/
def songFields : List SongField :=
  [.ID, .GroupName, .SongName, .ReleaseDate, .Text, .Lyrics, .Link]

/-- Field selected by an object key: an exact name match is preferred, otherwise a match
under case folding; `none` when the key names no field (the member is skipped). -/
def findField (key : String) : Option SongField :=
  match songFields.find? (fun f => f.jsonName = key) with
  | some f => some f
  | none => songFields.find? (fun f => EqualFold f.jsonName key)

/-- Decoding a JSON value into a Go `string` field: `null` leaves the field as it is, any
non-string value is an `UnmarshalTypeError`. -/
def decodeString (v : JSON) (cur : String) : Except GoError String :=
  match v with
  | .null => .ok cur
  | .string s => .ok s
  | _ => .error (.binding "json: cannot unmarshal value into Go struct field of type string")

/-- Decoding a JSON value into a Go `int` field: `null` leaves the field as it is, a number
must be an integer literal in range. -/
def decodeInt (v : JSON) (cur : Int) : Except GoError Int :=
  match v with
  | .null => .ok cur
  | .number lit =>
    match strconv.Atoi lit with
    | (n, none) => .ok n
    | (_, some _) => .error (.binding "json: cannot unmarshal number into Go struct field of type int")
  | _ => .error (.binding "json: cannot unmarshal value into Go struct field of type int")

/-- Stores one object member into the song. -/
def setMember (song : Song) (key : String) (v : JSON) : Except GoError Song :=
  match findField key with
  | none => .ok song
  | some .ID => (decodeInt v song.ID).map (fun x => { song with ID := x })
  | some .GroupName => (decodeString v song.GroupName).map (fun x => { song with GroupName := x })
  | some .SongName => (decodeString v song.SongName).map (fun x => { song with SongName := x })
  | some .ReleaseDate =>
    (decodeString v song.ReleaseDate).map (fun x => { song with ReleaseDate := x })
  | some .Text => (decodeString v song.Text).map (fun x => { song with Text := x })
  | some .Lyrics => (decodeString v song.Lyrics).map (fun x => { song with Lyrics := x })
  | some .Link => (decodeString v song.Link).map (fun x => { song with Link := x })

/-- Stores the members of an object one after the other, in document order (a later
duplicate overwrites an earlier one).  A type error makes the whole decoding fail. -/
def decodeMembers : List (String × JSON) → Song → Except GoError Song
  | [], song => .ok song
  | (k, v) :: rest, song =>
    match setMember song k v with
    | .error e => .error e
    | .ok song1 => decodeMembers rest song1

/-- The function `json.Unmarshal` into a `models.Song`. -/
def Unmarshal (v : JSON) (song : Song) : Except GoError Song :=
  match v with
  | .null => .ok song
  | .object members => decodeMembers members song
  | _ => .error (.binding "json: cannot unmarshal value into Go value of type models.Song")

/-- The struct validation of the tags `binding:"required"` on `GroupName` and `SongName`:
a required field must differ from its zero value, the empty string. -/
def validate (song : Song) : Option GoError :=
  if song.GroupName = "" then
    some (.binding "Field validation for 'GroupName' failed on the 'required' tag")
  else if song.SongName = "" then
    some (.binding "Field validation for 'SongName' failed on the 'required' tag")
  else none

/-- The zero value of `models.Song` (`var song models.Song`). -/
def zeroSong : Song := ⟨0, "", "", "", "", "", ""⟩

/-- The method `c.ShouldBindJSON(&song)` on a zero song: decode the body, then validate. -/
def ShouldBindJSON (c : Context) : Except GoError Song :=
  match c.Body with
  | none => .error (.binding "invalid JSON")
  | some v =>
    match Unmarshal v zeroSong with
    | .error e => .error e
    | .ok song =>
      match validate song with
      | some e => .error e
      | none => .ok song

end binding

namespace Handler

/-- The handler `GetInfo`. -/
def GetInfo {σ : Type} (_services : Service σ) (_c : Context) (st : σ) : Outcome × σ :=
  let songDetail : SongDetail :=
    { ReleaseDate := "16.07.2006"
      Text := "Ooh baby, don't you know I suffer?\nOoh baby, can you hear me moan?\nYou caught me under false pretenses\nHow long before you let me go?\n\nOoh\nYou set my soul alight\nOoh\nYou set my soul alight"
      Link := "https://www.youtube.com/watch?v=Xsp3_a-PMTw" }
  (.responded ⟨StatusOK, "application/json; charset=utf-8", .detail songDetail⟩, st)

/-- The handler `AddSong`. -/
def AddSong {σ : Type} (services : Service σ) (c : Context) (st : σ) : Outcome × σ :=
  match binding.ShouldBindJSON c with
  | .error _ => (respondH StatusBadRequest [("error", "Invalid request body")], st)
  | .ok song =>
    match services.AddSong song st with
    | (some _, st1) =>
      (respondH StatusInternalServerError [("error", "Failed to add song")], st1)
    | (none, st1) => (respondH StatusCreated [("message", "Song added successfully")], st1)

/-- The handler `GetSongs`: the errors of both `Atoi` calls are discarded.  A panic of the
service call leaves the handler before any header is set. -/
def GetSongs {σ : Type} (services : Service σ) (c : Context) (st : σ) : Outcome × σ :=
  let filter := c.Query "filter"
  let page := (strconv.Atoi (c.DefaultQuery "page" "1")).1
  let limit := (strconv.Atoi (c.DefaultQuery "limit" "10")).1
  match services.GetSongs filter page limit st with
  | (.panicked msg, st1) => (.panicked msg "", st1)
  | (.error _, st1) =>
    (respondH StatusInternalServerError [("error", "Failed to get songs")], st1)
  | (.ok songs, st1) =>
    (.responded ⟨StatusOK, "application/json; charset=utf-8", .songs songs⟩, st1)

/-- The handler `UpdateSong`. -/
def UpdateSong {σ : Type} (services : Service σ) (c : Context) (st : σ) : Outcome × σ :=
  match strconv.Atoi (c.Param "id") with
  | (_, some _) => (respondH StatusBadRequest [("error", "Invalid song ID")], st)
  | (id, none) =>
    match binding.ShouldBindJSON c with
    | .error _ => (respondH StatusBadRequest [("error", "Invalid request body")], st)
    | .ok song =>
      match services.UpdateSong id song st with
      | (some _, st1) =>
        (respondH StatusInternalServerError [("error", "Failed to update song")], st1)
      | (none, st1) => (respondH StatusOK [("message", "Song updated successfully")], st1)

/-- The handler `DeleteSong`. -/
def DeleteSong {σ : Type} (services : Service σ) (c : Context) (st : σ) : Outcome × σ :=
  match strconv.Atoi (c.Param "id") with
  | (_, some _) => (respondH StatusBadRequest [("error", "Invalid song ID")], st)
  | (id, none) =>
    match services.DeleteSong id st with
    | (some _, st1) =>
      (respondH StatusInternalServerError [("error", "Failed to delete song")], st1)
    | (none, st1) => (respondH StatusOK [("message", "Song deleted successfully")], st1)

end Handler

/-! ## database/sql: statements, arguments, results -/

/-- A statement argument or a column value. -/
inductive Value where
  | int (i : Int)
  | str (s : String)
  | bool (b : Bool)
deriving DecidableEq

/-- The text `fmt.Sprintf("%d", i)`. -/
def fmtInt (i : Int) : String :=
  if i < 0 then "-" ++ Nat.repr (-i).toNat else Nat.repr i.toNat

/-- One assignment of an UPDATE statement, the text `column = $placeholder`. -/
structure SetClause where
  column : String
  placeholder : Int
deriving DecidableEq

/-- The text `fmt.Sprintf("<column> = $%d", valueIndex)`. -/
def SetClause.toSQL (a : SetClause) : String :=
  a.column ++ " = $" ++ fmtInt a.placeholder

/-- The statements the repository issues.  The driver receives the statement; `Stmt.toSQL`
is the SQL text of the source. -/
inductive Stmt where
  | insertSong
  | selectSongs
  | songExists
  | selectText
  | updateSongs (setClauses : List SetClause) (whereIndex : Int)
  | deleteSong
deriving DecidableEq

/-- The SQL text of a statement, as written (or assembled) in `song_postgres.go`. -/
def Stmt.toSQL : Stmt → String
  | .insertSong =>
    "INSERT INTO songs (group_name, song, release_date, text, lyrics, link) VALUES ($1, $2, $3, $4, $5, $6)"
  | .selectSongs =>
    "\n        SELECT id, group_name, song, release_date, text, lyrics, link \n        FROM songs \n        WHERE ($1 = '' OR group_name ILIKE $1 OR song ILIKE $1 OR lyrics ILIKE $1) \n        LIMIT $2 OFFSET $3\n    "
  | .songExists => "SELECT EXISTS(SELECT 1 FROM songs WHERE id = $1)"
  | .selectText => "SELECT text FROM songs WHERE id = $1"
  | .updateSongs setClauses whereIndex =>
    "UPDATE songs SET " ++ strings.Join (setClauses.map SetClause.toSQL) ", "
      ++ " WHERE id = $" ++ fmtInt whereIndex
  | .deleteSong => "DELETE FROM songs WHERE id = $1"

/-- The value `sql.Result`: only `RowsAffected()` is read. -/
structure Result where
  RowsAffected : Except GoError Int

/-- The value `*sql.Rows`: the rows still to be read and the error `rows.Err()` reports
after the iteration. -/
structure Rows where
  data : List (List Value)
  Err : Option GoError

/-- The handle `*sqlx.DB` over a database state `σ`. -/
structure DB (σ : Type) where
  Exec : Stmt → List Value → σ → Except GoError Result × σ
  Query : Stmt → List Value → σ → Except GoError Rows × σ

/-- The call `db.QueryRow(query, args...).Scan(&x)` up to the conversion of the value: the
query error if the query failed, `sql.ErrNoRows` if it returned no row, otherwise the
first row. -/
def DB.QueryRow {σ : Type} (db : DB σ) (query : Stmt) (args : List Value) (st : σ) :
    Except GoError (List Value) × σ :=
  match db.Query query args st with
  | (.error e, st1) => (.error e, st1)
  | (.ok rows, st1) =>
    match rows.data with
    | [] => (.error (match rows.Err with | some e => e | none => .errNoRows), st1)
    | row :: _ => (.ok row, st1)

/-- The call `Scan(&exists)` with a `bool` destination. -/
def scanBool (row : List Value) : Except GoError Bool :=
  match row with
  | [.bool b] => .ok b
  | _ => .error (.scan "sql: Scan error on column index 0")

/-- The call `Scan(&text)` with a `string` destination. -/
def scanString (row : List Value) : Except GoError String :=
  match row with
  | [.str s] => .ok s
  | _ => .error (.scan "sql: Scan error on column index 0")

/-- The call `rows.Scan(&song.ID, &song.GroupName, &song.SongName, &song.ReleaseDate,
&song.Text, &song.Lyrics, &song.Link)`. -/
def scanSong (row : List Value) : Except GoError Song :=
  match row with
  | [.int id, .str g, .str s, .str rd, .str t, .str l, .str lk] => .ok ⟨id, g, s, rd, t, l, lk⟩
  | _ => .error (.scan "sql: Scan error")

/-! ## pkg/repository/song_postgres.go -/

namespace SongPostgres

/-- The method `AddSong`. -/
def AddSong {σ : Type} (db : DB σ) (song : Song) (st : σ) : Option GoError × σ :=
  match db.Exec .insertSong
      [.str song.GroupName, .str song.SongName, .str song.ReleaseDate, .str song.Text,
       .str song.Lyrics, .str song.Link] st with
  | (.error err, st1) => (some err, st1)
  | (.ok _, st1) => (none, st1)

/-- The loop `for rows.Next() { ... rows.Scan(...) ... songs = append(songs, song) }`. -/
def scanAll : List (List Value) → List Song → Except GoError (List Song)
  | [], songs => .ok songs
  | row :: rest, songs =>
    match scanSong row with
    | .error err => .error err
    | .ok song => scanAll rest (songs ++ [song])

/-- Size in bytes of a `models.Song` value on a 64-bit platform: one `int` and six string
headers. -/
def songSize : Int := 8 + 6 * 16

/-- The constant `maxAlloc` of the Go runtime on a 64-bit platform with 48 address bits
(amd64, arm64). -/
def maxAlloc : Int := 2 ^ 48

/-- The allocation `make([]models.Song, 0, limit)` panics ("makeslice: cap out of range")
when the capacity is negative or its size in bytes exceeds `maxAlloc`. -/
def makePanics (limit : Int) : Prop := limit < 0 ∨ limit * songSize > maxAlloc

instance (limit : Int) : Decidable (makePanics limit) := by
  unfold makePanics; exact inferInstance

/-- The method `GetSongs`.  Running out of memory in an allocation the runtime accepts is
not embedded. -/
def GetSongs {σ : Type} (db : DB σ) (filter : String) (page limit : Int) (st : σ) :
    Attempt (List Song) × σ :=
  let offset := wrapInt (wrapInt (page - 1) * limit)
  match db.Query .selectSongs [.str ("%" ++ filter ++ "%"), .int limit, .int offset] st with
  | (.error err, st1) => (.error err, st1)
  | (.ok rows, st1) =>
    if makePanics limit then (.panicked "makeslice: cap out of range", st1)
    else
      match scanAll rows.data [] with
      | .error err => (.error err, st1)
      | .ok songs =>
        match rows.Err with
        | some err => (.error err, st1)
        | none => (.ok songs, st1)

/-- The method `GetSongText`. -/
def GetSongText {σ : Type} (db : DB σ) (id : Int) (st : σ) : Except GoError String × σ :=
  match db.QueryRow .songExists [.int id] st with
  | (.error err, st1) => (.error err, st1)
  | (.ok row, st1) =>
    match scanBool row with
    | .error err => (.error err, st1)
    | .ok false => (.error (.errorf "song with id %d does not exist" id), st1)
    | .ok true =>
      match db.QueryRow .selectText [.int id] st1 with
      | (.error err, st2) =>
        if err = .errNoRows then (.error (.errorf "no text found for song id %d" id), st2)
        else (.error err, st2)
      | (.ok row2, st2) =>
        match scanString row2 with
        | .error err => (.error err, st2)
        | .ok text => (.ok text, st2)

/-- The local variables `setClauses`, `values`, `valueIndex` of `UpdateSong`. -/
structure UpdateBuilder where
  setClauses : List SetClause
  values : List Value
  valueIndex : Int
deriving DecidableEq

/-- One block `if field != "" { setClauses = append(...); values = append(...);
valueIndex++ }`. -/
def UpdateBuilder.addField (b : UpdateBuilder) (column field : String) : UpdateBuilder :=
  if field ≠ "" then
    { setClauses := b.setClauses ++ [⟨column, b.valueIndex⟩]
      values := b.values ++ [.str field]
      valueIndex := wrapInt (b.valueIndex + 1) }
  else b

/-- Lines 134-168 of `UpdateSong`: the six blocks in source order. -/
def updateBuilder (song : Song) : UpdateBuilder :=
  ((((((⟨[], [], 1⟩ : UpdateBuilder).addField "group_name" song.GroupName).addField
    "song" song.SongName).addField "release_date" song.ReleaseDate).addField
    "text" song.Text).addField "lyrics" song.Lyrics).addField "link" song.Link

/-- The method `UpdateSong`. -/
def UpdateSong {σ : Type} (db : DB σ) (id : Int) (song : Song) (st : σ) : Option GoError × σ :=
  let b := updateBuilder song
  if b.setClauses.length = 0 then (none, st)
  else
    let query := Stmt.updateSongs b.setClauses b.valueIndex
    let values := b.values ++ [.int id]
    match db.Exec query values st with
    | (.error err, st1) => (some err, st1)
    | (.ok _, st1) => (none, st1)

/-- The method `DeleteSong`. -/
def DeleteSong {σ : Type} (db : DB σ) (id : Int) (st : σ) : Option GoError × σ :=
  match db.Exec .deleteSong [.int id] st with
  | (.error err, st1) => (some err, st1)
  | (.ok res, st1) =>
    match res.RowsAffected with
    | .error err => (some err, st1)
    | .ok rowsAffected =>
      if rowsAffected = 0 then (some (.errorf "no song found with id %d" id), st1)
      else (none, st1)

end SongPostgres

/-! ## pkg/service/music_list.go and service.go -/

/-- The type `SongService` with its five pass-through methods, over the repository built
by `NewRepository(db)`; `NewService` embeds it as the `service.Song` of the handlers. -/
def NewService {σ : Type} (db : DB σ) : Service σ where
  AddSong := fun list => SongPostgres.AddSong db list
  GetSongs := fun filter page limit => SongPostgres.GetSongs db filter page limit
  GetSongText := fun id => SongPostgres.GetSongText db id
  UpdateSong := fun id song => SongPostgres.UpdateSong db id song
  DeleteSong := fun id => SongPostgres.DeleteSong db id

/-! ## The PostgreSQL server behind the handle -/

/-- Modelled from the spec: the table `songs`, "one table keyed by generated id with columns
group_name, song, release_date, text, lyrics, link" (the migration that creates it is not
among the sources).  `songs` lists the rows in scan order, `nextID` is the next value of the
id sequence, and `fault`, when set, is the error with which the server answers every
statement (a lost connection, say). -/
structure Store where
  songs : List Song
  nextID : Int
  fault : Option GoError
deriving DecidableEq

namespace postgres

/-- Lower-casing as `lower()` does it under the C locale: only A-Z change. -/
def lowerChar (c : Char) : Char :=
  if 65 ≤ c.toNat ∧ c.toNat ≤ 90 then Char.ofNat (c.toNat + 32) else c

/-- Some suffix of the text satisfies `f`. -/
def anySuffix (f : List Char → Bool) : List Char → Bool
  | [] => f []
  | c :: cs => f (c :: cs) || anySuffix f cs

/-- The operator `text LIKE pattern` with the default escape character: `%` matches any
run of characters, `_` any one character, a backslash makes the next pattern character
literal.  A pattern ending in a lone backslash is an error in PostgreSQL and matches
nothing here; the patterns `GetSongs` issues always end in `%`. -/
def likeMatch : List Char → List Char → Bool
  | [], s => s.isEmpty
  | p :: ps, s =>
    if p = '%' then anySuffix (likeMatch ps) s
    else if p = '_' then
      match s with
      | [] => false
      | _ :: rest => likeMatch ps rest
    else if p = '\\' then
      match ps with
      | [] => false
      | q :: qs =>
        match s with
        | [] => false
        | d :: rest => decide (q = d) && likeMatch qs rest
    else
      match s with
      | [] => false
      | d :: rest => decide (p = d) && likeMatch ps rest

/-- The operator `text ILIKE pattern`: `LIKE` on the lower-cased text and pattern. -/
def ILIKE (text pattern : String) : Bool :=
  likeMatch (pattern.data.map lowerChar) (text.data.map lowerChar)

/-- The condition `($1 = '' OR group_name ILIKE $1 OR song ILIKE $1 OR lyrics ILIKE $1)`. -/
def whereFilter (p1 : String) (r : Song) : Bool :=
  decide (p1 = "") || ILIKE r.GroupName p1 || ILIKE r.SongName p1 || ILIKE r.Lyrics p1

/-- The select list `id, group_name, song, release_date, text, lyrics, link` of a row. -/
def songRow (r : Song) : List Value :=
  [.int r.ID, .str r.GroupName, .str r.SongName, .str r.ReleaseDate, .str r.Text,
   .str r.Lyrics, .str r.Link]

/-- The argument bound to placeholder `$i`. -/
def resolve (args : List Value) (i : Int) : Option Value :=
  if 1 ≤ i then args.get? (i - 1).toNat else none

/-- The row with `column` set to `v`; `none` for a column the table does not have or that
a text value cannot be assigned to. -/
def setColumn (r : Song) (column v : String) : Option Song :=
  if column = "group_name" then some { r with GroupName := v }
  else if column = "song" then some { r with SongName := v }
  else if column = "release_date" then some { r with ReleaseDate := v }
  else if column = "text" then some { r with Text := v }
  else if column = "lyrics" then some { r with Lyrics := v }
  else if column = "link" then some { r with Link := v }
  else none

/-- The assignments of a SET list with their placeholders replaced by the text arguments;
`none` when a placeholder has no text argument. -/
def resolveSet (args : List Value) : List SetClause → Option (List (String × String))
  | [] => some []
  | a :: rest =>
    match resolve args a.placeholder, resolveSet args rest with
    | some (.str v), some tl => some ((a.column, v) :: tl)
    | _, _ => none

/-- The row after the assignments; `none` when one of them names no column. -/
def applySet (r : Song) : List (String × String) → Option Song
  | [] => some r
  | (column, v) :: rest =>
    match setColumn r column v with
    | none => none
    | some r1 => applySet r1 rest

/-- The statement is refused by the server. -/
def refused (st : Store) (msg : String) : Except GoError Result × Store :=
  (.error (.driver msg), st)

/-- The statement `UPDATE songs SET ... WHERE id = $k`: a SET list that is empty, assigns a
column twice or names an unknown column is refused; otherwise every row with the given id
gets the assignments. -/
def execUpdate (setClauses : List SetClause) (whereIndex : Int) (args : List Value)
    (st : Store) : Except GoError Result × Store :=
  match resolveSet args setClauses, resolve args whereIndex with
  | some assignments, some (.int id) =>
    if setClauses = [] then refused st "pq: syntax error"
    else if ¬ (setClauses.map SetClause.column).Nodup then
      refused st "pq: multiple assignments to same column"
    else
      match applySet default assignments with
      | none => refused st "pq: column does not exist"
      | some _ =>
        (.ok ⟨.ok ((st.songs.filter (fun r => r.ID = id)).length : Int)⟩,
         { st with songs := st.songs.map (fun r =>
             if r.ID = id then (applySet r assignments).getD r else r) })
  | _, _ => refused st "pq: could not bind the parameters"

/-- The method `Exec` on the PostgreSQL server.  `RowsAffected()` never fails with the
`lib/pq` driver. -/
def Exec (query : Stmt) (args : List Value) (st : Store) : Except GoError Result × Store :=
  match st.fault with
  | some e => (.error e, st)
  | none =>
    match query, args with
    | .insertSong, [.str g, .str s, .str rd, .str t, .str l, .str lk] =>
      if st.songs.any (fun r => r.ID = st.nextID) then
        (.error (.driver "pq: duplicate key value violates unique constraint"),
         { st with nextID := st.nextID + 1 })
      else
        (.ok ⟨.ok 1⟩,
         { st with songs := st.songs ++ [⟨st.nextID, g, s, rd, t, l, lk⟩]
                   nextID := st.nextID + 1 })
    | .updateSongs setClauses whereIndex, args => execUpdate setClauses whereIndex args st
    | .deleteSong, [.int id] =>
      (.ok ⟨.ok ((st.songs.filter (fun r => r.ID = id)).length : Int)⟩,
       { st with songs := st.songs.filter (fun r => r.ID ≠ id) })
    | _, _ => refused st "pq: statement not executable"

/-- The method `Query` on the PostgreSQL server.  Without ORDER BY the rows come in scan
order. -/
def Query (query : Stmt) (args : List Value) (st : Store) : Except GoError Rows × Store :=
  match st.fault with
  | some e => (.error e, st)
  | none =>
    match query, args with
    | .selectSongs, [.str p1, .int limit, .int offset] =>
      if limit < 0 then (.error (.driver "pq: LIMIT must not be negative"), st)
      else if offset < 0 then (.error (.driver "pq: OFFSET must not be negative"), st)
      else
        (.ok ⟨(((st.songs.filter (whereFilter p1)).drop offset.toNat).take limit.toNat).map
                songRow, none⟩, st)
    | .songExists, [.int id] =>
      (.ok ⟨[[.bool (st.songs.any (fun r => r.ID = id))]], none⟩, st)
    | .selectText, [.int id] =>
      (.ok ⟨(st.songs.filter (fun r => r.ID = id)).map (fun r => [.str r.Text]), none⟩, st)
    | _, _ => (.error (.driver "pq: statement not executable"), st)

end postgres

/-- The handle returned by `NewPostgresDB`: `sqlx` over the PostgreSQL server. -/
def pg : DB Store := ⟨postgres.Exec, postgres.Query⟩

/-! ## Reading a payload the way the decoder does -/

/-- The value a JSON object gives for a field of `Song`: that of the last member whose key
selects the field (`findField`), `none` when no member does. -/
def binding.memberValue (f : binding.SongField) : List (String × JSON) → Option JSON
  | [] => none
  | (k, v) :: rest =>
    match binding.memberValue f rest with
    | some w => some w
    | none => if binding.findField k = some f then some v else none

/-- The field is absent from the JSON object or given as the empty string. -/
def binding.AbsentOrEmpty (f : binding.SongField) (members : List (String × JSON)) : Prop :=
  binding.memberValue f members = none ∨ binding.memberValue f members = some (.string "")

/-! ## The partial update law, in the words of the specification -/

/-- The row the partial update law prescribes for a stored row `r` and a partial song: every
one of the six fields takes the partial's value when that value is non-empty and keeps its
stored value otherwise; the identifier is kept. -/
def mergedRow (r partialSong : Song) : Song :=
  { ID := r.ID
    GroupName := if partialSong.GroupName ≠ "" then partialSong.GroupName else r.GroupName
    SongName := if partialSong.SongName ≠ "" then partialSong.SongName else r.SongName
    ReleaseDate :=
      if partialSong.ReleaseDate ≠ "" then partialSong.ReleaseDate else r.ReleaseDate
    Text := if partialSong.Text ≠ "" then partialSong.Text else r.Text
    Lyrics := if partialSong.Lyrics ≠ "" then partialSong.Lyrics else r.Lyrics
    Link := if partialSong.Link ≠ "" then partialSong.Link else r.Link }

/-! ## Containment, in the words of the specification -/

/-- The filter occurs in the text as a contiguous substring, compared case-insensitively
(both are lower-cased as the server does it). -/
def ContainsFold (filter text : String) : Prop :=
  (filter.data.map postgres.lowerChar) <:+: (text.data.map postgres.lowerChar)

instance (filter text : String) : Decidable (ContainsFold filter text) := by
  unfold ContainsFold; exact inferInstance

/-- The filter holds none of the characters LIKE gives a meaning to: percent, underscore,
backslash. -/
def WildcardFree (filter : String) : Prop :=
  ∀ c ∈ filter.data, c ≠ '%' ∧ c ≠ '_' ∧ c ≠ '\\'

instance (filter : String) : Decidable (WildcardFree filter) := by
  unfold WildcardFree; exact inferInstance

/-- Two songs agree on group name, title, release date, text, lyrics and link. -/
def SameFields (a b : Song) : Prop :=
  a.GroupName = b.GroupName ∧ a.SongName = b.SongName ∧ a.ReleaseDate = b.ReleaseDate
    ∧ a.Text = b.Text ∧ a.Lyrics = b.Lyrics ∧ a.Link = b.Link

instance (a b : Song) : Decidable (SameFields a b) := by
  unfold SameFields; exact inferInstance

/-! ## Concrete requests and stores used in the evaluations below -/

/-- A store holding one song whose text is A, B, C separated by the four-character marker
backslash, n, backslash, n. -/
def storeABC : Store :=
  { songs := [⟨1, "G", "S", "", "A\\n\\nB\\n\\nC", "", ""⟩], nextID := 2, fault := none }

/-- The request `GET /songs/<id>/text?page=<page>&limit=<limit>`. -/
def textRequest (id page limit : String) : Context :=
  { Params := [("id", id)], QueryArgs := [("page", page), ("limit", limit)], Body := none }

/-- The request `POST /songs/` whose body is the JSON object with the given members. -/
def bodyRequest (members : List (String × JSON)) : Context :=
  { Params := [], QueryArgs := [], Body := some (.object members) }

/-- The request `GET /songs/` without query arguments. -/
def listRequest : Context :=
  { Params := [], QueryArgs := [], Body := none }

/-- A store that already holds ten songs, with identifiers 1 to 10. -/
def storeTen : Store :=
  { songs := (List.range 10).map (fun i => ⟨(i : Int) + 1, "Old group", "Old song", "", "", "", ""⟩)
    nextID := 11
    fault := none }

/-- A song to add. -/
def newSong : Song :=
  ⟨0, "Muse", "Supermassive Black Hole", "16.07.2006", "text", "lyrics", "link"⟩

/-! ## gin: the router (`pkg/handler/handler.go`, `cmd/main.go`) -/

/-- An incoming HTTP request: method, URL path, query arguments and body. -/
structure Request where
  Method : String
  Path : String
  QueryArgs : List (String × String)
  Body : Option JSON

/-- A registered route: method, full path pattern and handler. -/
structure Route (σ : Type) where
  Method : String
  Path : String
  HandlerFunc : Context → σ → Outcome × σ

/-- Matching of the segments of a route pattern against the segments of a request path.  A
segment `:name` takes one path segment, which may be empty unless it is the last one of
the pattern; a segment `*name` takes the rest of the path; any other segment must be
equal.  The result is the list of path parameters. -/
def matchSegments : List String → List String → Option (List (String × String))
  | [], [] => some []
  | [], _ :: _ => none
  | p :: ps, segs =>
    match p.data with
    | '*' :: name =>
      match segs with
      | [] => none
      | _ :: _ => some [(String.mk name, "/" ++ strings.Join segs "/")]
    | ':' :: name =>
      match segs with
      | [] => none
      | s :: rest =>
        if s = "" ∧ ps = [] then none
        else (matchSegments ps rest).map (fun tl => (String.mk name, s) :: tl)
    | _ =>
      match segs with
      | [] => none
      | s :: rest => if s = p then matchSegments ps rest else none

/-- The route serving a method and path, with the path parameters it binds. -/
def findRoute {σ : Type} (routes : List (Route σ)) (method path : String) :
    Option (Route σ × List (String × String)) :=
  match routes with
  | [] => none
  | r :: rest =>
    if r.Method = method then
      match matchSegments (strings.Split r.Path "/") (strings.Split path "/") with
      | some params => some (r, params)
      | none => findRoute rest method path
    else findRoute rest method path

/-- The path with its final slash removed, or added when it has none. -/
def toggleSlash (path : String) : String :=
  if strings.HasSuffix path "/" then strings.TrimSuffix path "/" else path ++ "/"

/-- What the engine does with a request: a handler (or the engine itself) writes a
response, or the engine redirects to the URL made of the path with the final slash toggled
and the query of the request. -/
inductive Served where
  | outcome (o : Outcome)
  | redirect (code : Nat) (path : String) (query : List (String × String))
deriving DecidableEq

/-- The engine `gin.New()` with `gin.Recovery()`, serving one request without an
`X-Forwarded-Prefix` header: the matching handler runs (a panic of the handler is recovered
into status 500 with an empty body, the headers set before the panic being kept); without
a matching route the engine redirects when the path with its final slash toggled has a
route, and otherwise answers 404. -/
def ServeHTTP {σ : Type} (routes : List (Route σ)) (req : Request) (st : σ) : Served × σ :=
  match findRoute routes req.Method req.Path with
  | some (r, params) =>
    match r.HandlerFunc ⟨params, req.QueryArgs, req.Body⟩ st with
    | (.panicked _ contentType, st1) =>
      (.outcome (.responded ⟨StatusInternalServerError, contentType, .text ""⟩), st1)
    | (.responded resp, st1) => (.outcome (.responded resp), st1)
  | none =>
    if req.Path ≠ "/" ∧ (findRoute routes req.Method (toggleSlash req.Path)).isSome then
      (.redirect (if req.Method = "GET" then 301 else 307) (toggleSlash req.Path)
        req.QueryArgs, st)
    else (.outcome (.responded ⟨404, "text/plain", .text "404 page not found"⟩), st)

/-- The method `InitRoutes`: the five routes of the group `/songs`. -/
def Handler.InitRoutes {σ : Type} (services : Service σ) : List (Route σ) :=
  [ ⟨"POST", "/songs/", Handler.AddSong services⟩,
    ⟨"GET", "/songs/", Handler.GetSongs services⟩,
    ⟨"GET", "/songs/:id/text", Handler.GetSongText services⟩,
    ⟨"PUT", "/songs/:id", Handler.UpdateSong services⟩,
    ⟨"DELETE", "/songs/:id", Handler.DeleteSong services⟩ ]

/-- The router of `main`: `InitRoutes()` extended by the Swagger route, whose handler comes
from the library `gin-swagger`. -/
def mainRouter {σ : Type} (services : Service σ) (swagger : Context → σ → Outcome × σ) :
    List (Route σ) :=
  Handler.InitRoutes services ++ [⟨"GET", "/swagger/*any", swagger⟩]

/-- The fixed value `GetInfo` writes. -/
def infoDetail : SongDetail :=
  { ReleaseDate := "16.07.2006"
    Text := "Ooh baby, don't you know I suffer?\nOoh baby, can you hear me moan?\nYou caught me under false pretenses\nHow long before you let me go?\n\nOoh\nYou set my soul alight\nOoh\nYou set my soul alight"
    Link := "https://www.youtube.com/watch?v=Xsp3_a-PMTw" }

/-! ## Integer literals and query integers, in the words of the specification -/

/-- The character is a decimal digit. -/
def IsDigit (c : Char) : Prop := 48 ≤ c.toNat ∧ c.toNat ≤ 57

instance (c : Char) : Decidable (IsDigit c) := by
  unfold IsDigit; exact inferInstance

/-- The characters of a string after its optional sign. -/
def literalDigits (s : String) : List Char :=
  match s.data with
  | [] => []
  | c :: cs => if c = '-' ∨ c = '+' then cs else c :: cs

/-- The string is a decimal integer literal: an optional sign followed by one or more
decimal digits. -/
def IsDecimalInt (s : String) : Prop :=
  literalDigits s ≠ [] ∧ ∀ d ∈ literalDigits s, IsDigit d

instance (s : String) : Decidable (IsDecimalInt s) := by
  unfold IsDecimalInt; exact inferInstance

/-- The number a run of decimal digits denotes. -/
def digitsValue (ds : List Char) : Nat :=
  ds.foldl (fun n d => n * 10 + (d.toNat - 48)) 0

/-- The integer a decimal integer literal denotes. -/
def decimalValue (s : String) : Int :=
  if s.data.head? = some '-' then -(digitsValue (literalDigits s) : Int)
  else (digitsValue (literalDigits s) : Int)

/-- The nearest Go `int` to a mathematical integer. -/
def clampInt (x : Int) : Int :=
  if x > maxInt then maxInt else if x < minInt then minInt else x

/-- The decimal digits a text starts with. -/
def leadingDigits (ds : List Char) : List Char :=
  ds.takeWhile (fun d => decide (IsDigit d))

/-- The digits a string starts with, after its optional sign, denote a number that does
not fit 64 bits. -/
def LeadingDigitsOverflow (s : String) : Prop :=
  digitsValue (leadingDigits (literalDigits s)) ≥ 2 ^ 64

instance (s : String) : Decidable (LeadingDigitsOverflow s) := by
  unfold LeadingDigitsOverflow; exact inferInstance

/-- The integer the List handler passes on for a query key: the default when the key is
absent; the largest `int`, or the smallest after a minus sign, when the digits the value
starts with (after the optional sign) do not fit 64 bits; otherwise 0 when the value is
no decimal integer literal, and else the value of the literal, replaced by the nearest
bound when it lies outside the range of `int`. -/
def passedInt (c : Context) (key : String) (dflt : Int) : Int :=
  match lookupFirst key c.QueryArgs with
  | none => dflt
  | some v =>
    if LeadingDigitsOverflow v then (if v.data.head? = some '-' then minInt else maxInt)
    else if IsDecimalInt v then clampInt (decimalValue v) else 0

/-- The integer the Get-text handler reads for a query key, with the parse error if any:
the default when the key is absent, otherwise what `Atoi` makes of the supplied value. -/
def queryIntOr (c : Context) (key : String) (dflt : Int) : Int × Option GoError :=
  match lookupFirst key c.QueryArgs with
  | none => (dflt, none)
  | some v => strconv.Atoi v

/-- A service that records the arguments of every `GetSongs` call in its state and
returns the empty list. -/
def recorder : Service (List (String × Int × Int)) where
  AddSong := fun _ log => (none, log)
  GetSongs := fun filter page limit log => (.ok [], log ++ [(filter, page, limit)])
  GetSongText := fun _ log => (.ok "", log)
  UpdateSong := fun _ _ log => (none, log)
  DeleteSong := fun _ log => (none, log)

/-- The request `GET /songs/?page=<page>`. -/
def listPageRequest (page : String) : Context :=
  { Params := [], QueryArgs := [("page", page)], Body := none }

/-! ## Markers in a text; the columns of a partial song -/

/-- The text holds the two-character marker backslash, n somewhere. -/
def hasMarker : List Char → Bool
  | [] => false
  | c :: cs => (decide (c = '\\') && decide (cs.head? = some 'n')) || hasMarker cs

/-- The six text columns with the values a song gives them, in the order of the source. -/
def songColumns (song : Song) : List (String × String) :=
  [("group_name", song.GroupName), ("song", song.SongName),
   ("release_date", song.ReleaseDate), ("text", song.Text), ("lyrics", song.Lyrics),
   ("link", song.Link)]

/-- The columns whose value in the partial song is non-empty, in the same order. -/
def nonEmptyColumns (song : Song) : List (String × String) :=
  (songColumns song).filter (fun p => decide (p.2 ≠ ""))

/-- The assignments `c1 = $n, c2 = $(n+1), ...` for a list of columns: placeholders
numbered consecutively from `n`. -/
def numbered : Int → List (String × String) → List SetClause
  | _, [] => []
  | n, (column, _) :: rest => ⟨column, n⟩ :: numbered (n + 1) rest

/-- The request `PUT /songs/<id>` whose body is the JSON object with the given members. -/
def putRequest (id : String) (members : List (String × JSON)) : Context :=
  { Params := [("id", id)], QueryArgs := [], Body := some (.object members) }

/-! ## Arithmetic of Go `int` -/

theorem wrapInt_of_inRange (x : Int) (h : InIntRange x) : wrapInt x = x := by
  unfold InIntRange minInt maxInt at h
  unfold wrapInt
  rw [Int.emod_eq_of_lt (by omega) (by omega)]
  omega

/-! ## Text pagination (`Handler.GetSongText`) -/

/-- C1 (evaluation of the code at the spec's example): with the stored text A, B, C
separated by backslash-n markers and limit=1, the Get-text handler answers page 1 with the
whole normalised text (all three verses) and page 2 with the empty-text object, not with
the single verses "A" and "B". -/
theorem C1_text_example_actual :
    (Handler.GetSongText (NewService pg) (textRequest "1" "1" "1") storeABC).1
        = respondString 200 "A\n\nB\n\nC"
      ∧ (Handler.GetSongText (NewService pg) (textRequest "1" "2" "1") storeABC).1
        = respondH 200 [("text", "")]
      ∧ (Handler.GetSongText (NewService pg) (textRequest "1" "4" "1") storeABC).1
        = respondH 200 [("text", "")] := by
  decide

/-- C2: for page >= 1 and limit >= 1 whose products do not overflow, the Get-text handler
answers 200 with the verses at indices [(page-1)*limit, min(page*limit, total)) joined by
two newlines when the page starts inside the verse list, and 200 with the empty-text object
when it starts at or beyond its end. -/
theorem C2_text_page_window {σ : Type} (services : Service σ) (c : Context) (st st1 : σ)
    (id page limit : Int) (text : String)
    (hid : strconv.Atoi (c.Param "id") = (id, none))
    (hpage : strconv.Atoi (c.DefaultQuery "page" "1") = (page, none))
    (hlimit : strconv.Atoi (c.DefaultQuery "limit" "5") = (limit, none))
    (hsvc : services.GetSongText id st = (.ok text, st1))
    (hp : 1 ≤ page) (hl : 1 ≤ limit)
    (hstart : InIntRange ((page - 1) * limit)) (hstop : InIntRange (page * limit)) :
    let verses := Handler.splitVerses (strings.ReplaceAll text "\\n" "\n")
    let total : Int := verses.length
    ((page - 1) * limit < total →
        (Handler.GetSongText services c st).1
          = respondString 200 (strings.Join
              ((verses.drop ((page - 1) * limit).toNat).take
                ((min (page * limit) total).toNat - ((page - 1) * limit).toNat)) "\n\n"))
      ∧ (total ≤ (page - 1) * limit →
        (Handler.GetSongText services c st).1 = respondH 200 [("text", "")]) := by
  intro verses total
  have hpm : InIntRange (page - 1) := by
    unfold InIntRange minInt maxInt at *
    constructor
    · omega
    · nlinarith
  have hstart_eq : wrapInt (wrapInt (page - 1) * limit) = (page - 1) * limit := by
    rw [wrapInt_of_inRange _ hpm, wrapInt_of_inRange _ hstart]
  have hstop_eq : wrapInt ((page - 1) * limit + limit) = page * limit := by
    have : (page - 1) * limit + limit = page * limit := by ring
    rw [this, wrapInt_of_inRange _ hstop]
  have hnn : 0 ≤ (page - 1) * limit := by nlinarith
  have hle : (page - 1) * limit ≤ page * limit := by nlinarith
  have hrun : (Handler.GetSongText services c st).1
      = Handler.textPage text page limit := by
    simp [Handler.GetSongText, hid, hpage, hlimit, hsvc]
  rw [hrun]
  unfold Handler.textPage
  simp only [hstart_eq, hstop_eq]
  constructor
  · intro hlt
    have hlt2 : ¬ ((page - 1) * limit ≥ (verses.length : Int)) := by
      simpa [total] using hlt
    rw [if_neg hlt2]
    by_cases hov : page * limit > (verses.length : Int)
    · have hmin : min (page * limit) total = (verses.length : Int) :=
        min_eq_right (le_of_lt hov)
      simp only [hov, if_true, sliceRange, hmin]
      rw [if_pos ⟨hnn, le_of_lt (not_le.mp hlt2), le_refl _⟩]
      simp [StatusOK]
    · have hmin : min (page * limit) total = page * limit :=
        min_eq_left (not_lt.mp hov)
      simp only [hov, if_false, sliceRange, hmin]
      rw [if_pos ⟨hnn, hle, not_lt.mp hov⟩]
      simp [StatusOK]
  · intro hge
    have hge2 : (page - 1) * limit ≥ (verses.length : Int) := by
      simpa [total] using hge
    rw [if_pos hge2]
    simp [StatusOK]

/-- C2 at a concrete request: page 1 with limit 1 on the store holding the A, B, C text. -/
theorem C2_text_page_window_witness :
    (((1 : Int) - 1) * 1 < ((Handler.splitVerses (strings.ReplaceAll "A\\n\\nB\\n\\nC"
          "\\n" "\n")).length : Int) →
        (Handler.GetSongText (NewService pg) (textRequest "1" "1" "1") storeABC).1
          = respondString 200 (strings.Join
              (((Handler.splitVerses (strings.ReplaceAll "A\\n\\nB\\n\\nC" "\\n" "\n")).drop
                  (((1 : Int) - 1) * 1).toNat).take
                ((min ((1 : Int) * 1) ((Handler.splitVerses (strings.ReplaceAll
                    "A\\n\\nB\\n\\nC" "\\n" "\n")).length : Int)).toNat
                  - (((1 : Int) - 1) * 1).toNat)) "\n\n"))
      ∧ (((Handler.splitVerses (strings.ReplaceAll "A\\n\\nB\\n\\nC" "\\n" "\n")).length : Int)
          ≤ ((1 : Int) - 1) * 1 →
        (Handler.GetSongText (NewService pg) (textRequest "1" "1" "1") storeABC).1
          = respondH 200 [("text", "")]) :=
  C2_text_page_window (NewService pg) (textRequest "1" "1" "1") storeABC storeABC 1 1 1
    "A\\n\\nB\\n\\nC" (by decide) (by decide) (by decide) rfl (by decide) (by decide)
    (by decide) (by decide)

/-! ## Input validation of the Add handler -/

theorem setMember_GroupName_of_other (song song1 : Song) (k : String) (v : JSON)
    (hk : binding.findField k ≠ some .GroupName)
    (h : binding.setMember song k v = .ok song1) : song1.GroupName = song.GroupName := by
  unfold binding.setMember at h
  cases hf : binding.findField k with
  | none => simp [hf] at h; rw [← h]
  | some f =>
    cases f <;> simp only [hf] at h <;>
      first
      | exact absurd hf hk
      | (cases hd : binding.decodeInt v song.ID <;> simp [hd, Except.map] at h; rw [← h])
      | (cases hd : binding.decodeString v song.SongName <;> simp [hd, Except.map] at h
         rw [← h])
      | (cases hd : binding.decodeString v song.ReleaseDate <;> simp [hd, Except.map] at h
         rw [← h])
      | (cases hd : binding.decodeString v song.Text <;> simp [hd, Except.map] at h
         rw [← h])
      | (cases hd : binding.decodeString v song.Lyrics <;> simp [hd, Except.map] at h
         rw [← h])
      | (cases hd : binding.decodeString v song.Link <;> simp [hd, Except.map] at h
         rw [← h])

theorem setMember_SongName_of_other (song song1 : Song) (k : String) (v : JSON)
    (hk : binding.findField k ≠ some .SongName)
    (h : binding.setMember song k v = .ok song1) : song1.SongName = song.SongName := by
  unfold binding.setMember at h
  cases hf : binding.findField k with
  | none => simp [hf] at h; rw [← h]
  | some f =>
    cases f <;> simp only [hf] at h <;>
      first
      | exact absurd hf hk
      | (cases hd : binding.decodeInt v song.ID <;> simp [hd, Except.map] at h; rw [← h])
      | (cases hd : binding.decodeString v song.GroupName <;> simp [hd, Except.map] at h
         rw [← h])
      | (cases hd : binding.decodeString v song.ReleaseDate <;> simp [hd, Except.map] at h
         rw [← h])
      | (cases hd : binding.decodeString v song.Text <;> simp [hd, Except.map] at h
         rw [← h])
      | (cases hd : binding.decodeString v song.Lyrics <;> simp [hd, Except.map] at h
         rw [← h])
      | (cases hd : binding.decodeString v song.Link <;> simp [hd, Except.map] at h
         rw [← h])

theorem setMember_GroupName_empty (song song1 : Song) (k : String)
    (hk : binding.findField k = some .GroupName)
    (h : binding.setMember song k (.string "") = .ok song1) : song1.GroupName = "" := by
  simp [binding.setMember, hk, binding.decodeString, Except.map] at h
  rw [← h]

theorem setMember_SongName_empty (song song1 : Song) (k : String)
    (hk : binding.findField k = some .SongName)
    (h : binding.setMember song k (.string "") = .ok song1) : song1.SongName = "" := by
  simp [binding.setMember, hk, binding.decodeString, Except.map] at h
  rw [← h]

theorem decodeMembers_GroupName (members : List (String × JSON)) :
    ∀ song song1 : Song, binding.decodeMembers members song = .ok song1 →
      (binding.memberValue .GroupName members = none → song1.GroupName = song.GroupName)
      ∧ (binding.memberValue .GroupName members = some (.string "") → song1.GroupName = "") := by
  induction members with
  | nil =>
    intro song song1 h
    simp [binding.decodeMembers] at h
    simp [binding.memberValue, h]
  | cons m rest ih =>
    intro song song1 h
    obtain ⟨k, v⟩ := m
    simp only [binding.decodeMembers] at h
    cases hs : binding.setMember song k v with
    | error e => simp [hs] at h
    | ok song2 =>
      simp only [hs] at h
      obtain ⟨ih1, ih2⟩ := ih song2 song1 h
      simp only [binding.memberValue]
      cases hr : binding.memberValue .GroupName rest with
      | some w =>
        simp only [hr] at ih2 ⊢
        exact ⟨fun hc => by simp at hc, ih2⟩
      | none =>
        have e1 := ih1 hr
        by_cases hk : binding.findField k = some .GroupName
        · simp only [hk, if_true]
          refine ⟨fun hc => by simp at hc, fun hv => ?_⟩
          have hv2 : v = .string "" := by simpa using hv
          subst hv2
          rw [e1]
          exact setMember_GroupName_empty song song2 k hk hs
        · simp only [hk, if_false]
          refine ⟨fun _ => ?_, fun hc => by simp at hc⟩
          rw [e1]
          exact setMember_GroupName_of_other song song2 k v hk hs

theorem decodeMembers_SongName (members : List (String × JSON)) :
    ∀ song song1 : Song, binding.decodeMembers members song = .ok song1 →
      (binding.memberValue .SongName members = none → song1.SongName = song.SongName)
      ∧ (binding.memberValue .SongName members = some (.string "") → song1.SongName = "") := by
  induction members with
  | nil =>
    intro song song1 h
    simp [binding.decodeMembers] at h
    simp [binding.memberValue, h]
  | cons m rest ih =>
    intro song song1 h
    obtain ⟨k, v⟩ := m
    simp only [binding.decodeMembers] at h
    cases hs : binding.setMember song k v with
    | error e => simp [hs] at h
    | ok song2 =>
      simp only [hs] at h
      obtain ⟨ih1, ih2⟩ := ih song2 song1 h
      simp only [binding.memberValue]
      cases hr : binding.memberValue .SongName rest with
      | some w =>
        simp only [hr] at ih2 ⊢
        exact ⟨fun hc => by simp at hc, ih2⟩
      | none =>
        have e1 := ih1 hr
        by_cases hk : binding.findField k = some .SongName
        · simp only [hk, if_true]
          refine ⟨fun hc => by simp at hc, fun hv => ?_⟩
          have hv2 : v = .string "" := by simpa using hv
          subst hv2
          rw [e1]
          exact setMember_SongName_empty song song2 k hk hs
        · simp only [hk, if_false]
          refine ⟨fun _ => ?_, fun hc => by simp at hc⟩
          rw [e1]
          exact setMember_SongName_of_other song song2 k v hk hs

/-- A body whose group or title is absent or empty never passes `ShouldBindJSON`. -/
theorem ShouldBindJSON_error_of_empty (c : Context) (members : List (String × JSON))
    (hbody : c.Body = some (.object members))
    (h : binding.AbsentOrEmpty .GroupName members ∨ binding.AbsentOrEmpty .SongName members) :
    ∃ e, binding.ShouldBindJSON c = .error e := by
  unfold binding.ShouldBindJSON
  simp only [hbody, binding.Unmarshal]
  cases hd : binding.decodeMembers members binding.zeroSong with
  | error e => exact ⟨e, rfl⟩
  | ok song =>
    simp only
    have hg := decodeMembers_GroupName members _ _ hd
    have hs := decodeMembers_SongName members _ _ hd
    have hempty : song.GroupName = "" ∨ song.SongName = "" := by
      rcases h with h | h
      · left
        rcases h with h | h
        · exact hg.1 h
        · exact hg.2 h
      · right
        rcases h with h | h
        · exact hs.1 h
        · exact hs.2 h
    by_cases hgn : song.GroupName = ""
    · simp [binding.validate, hgn]
    · have hsn : song.SongName = "" := hempty.resolve_left hgn
      simp [binding.validate, hgn, hsn]

/-- C3: an add request whose JSON object has the group field or the song field absent or
equal to the empty string is answered 400, and the service is not called: whatever the
service is, the state behind it is returned untouched. -/
theorem C3_add_requires_group_and_song {σ : Type} (services : Service σ) (c : Context)
    (st : σ) (members : List (String × JSON))
    (hbody : c.Body = some (.object members))
    (h : binding.AbsentOrEmpty .GroupName members ∨ binding.AbsentOrEmpty .SongName members) :
    Handler.AddSong services c st
      = (respondH 400 [("error", "Invalid request body")], st) := by
  obtain ⟨e, he⟩ := ShouldBindJSON_error_of_empty c members hbody h
  simp [Handler.AddSong, he, StatusBadRequest]

/-- C3 at a concrete request: a body with a title and an empty group, sent to the real
service over a store. -/
theorem C3_add_requires_group_and_song_witness :
    Handler.AddSong (NewService pg)
        (bodyRequest [("group", .string ""), ("song", .string "Supermassive")]) storeABC
      = (respondH 400 [("error", "Invalid request body")], storeABC) :=
  C3_add_requires_group_and_song (NewService pg)
    (bodyRequest [("group", .string ""), ("song", .string "Supermassive")]) storeABC
    [("group", .string ""), ("song", .string "Supermassive")] rfl (Or.inl (Or.inr rfl))

/-! ## Storage: update -/

/-- C4: when storage `UpdateSong(id, partial)` succeeds (for any id, in particular that of
an existing row), every row with identifier `id` has each of its six fields equal to the
partial's value where that is non-empty and to its prior value where it is empty, and
every other row, as well as the rest of the store, is unchanged. -/
theorem C4_partial_update_law (st st1 : Store) (id : Int) (song : Song)
    (hok : SongPostgres.UpdateSong pg id song st = (none, st1)) :
    st1 = { st with
      songs := st.songs.map (fun r => if r.ID = id then mergedRow r song else r) } := by
  obtain ⟨sid, g, s, rd, t, l, lk⟩ := song
  obtain ⟨songs, nid, fault⟩ := st
  cases fault with
  | some e =>
    by_cases h1 : g = "" <;> by_cases h2 : s = "" <;> by_cases h3 : rd = "" <;>
    by_cases h4 : t = "" <;> by_cases h5 : l = "" <;> by_cases h6 : lk = "" <;>
    simp [SongPostgres.UpdateSong, SongPostgres.updateBuilder,
      SongPostgres.UpdateBuilder.addField, h1, h2, h3, h4, h5, h6, pg, postgres.Exec,
      mergedRow] at hok ⊢
    subst hok; rfl
  | none =>
    by_cases h1 : g = "" <;> by_cases h2 : s = "" <;> by_cases h3 : rd = "" <;>
    by_cases h4 : t = "" <;> by_cases h5 : l = "" <;> by_cases h6 : lk = "" <;>
    simp [SongPostgres.UpdateSong, SongPostgres.updateBuilder,
      SongPostgres.UpdateBuilder.addField, h1, h2, h3, h4, h5, h6, pg, postgres.Exec,
      postgres.execUpdate, postgres.resolveSet, postgres.resolve, postgres.applySet,
      postgres.setColumn, postgres.refused, wrapInt, mergedRow] at hok ⊢ <;>
    (subst hok; rfl)

/-- C4 at a concrete update: only the title of song 1 is supplied. -/
theorem C4_partial_update_law_witness :
    ({ songs := [⟨1, "G", "New title", "", "A\\n\\nB\\n\\nC", "", ""⟩], nextID := 2,
       fault := none } : Store)
      = { storeABC with
          songs := storeABC.songs.map (fun r =>
            if r.ID = 1 then mergedRow r ⟨0, "", "New title", "", "", "", ""⟩ else r) } :=
  C4_partial_update_law storeABC _ 1 ⟨0, "", "New title", "", "", "", ""⟩ (by decide)

/-- C10: when all six string fields of the partial song are empty, storage `UpdateSong`
returns success without calling the database handle: for every handle and every state the
state comes back untouched. -/
theorem C10_update_nothing_is_noop {σ : Type} (db : DB σ) (st : σ) (id : Int) (song : Song)
    (h1 : song.GroupName = "") (h2 : song.SongName = "") (h3 : song.ReleaseDate = "")
    (h4 : song.Text = "") (h5 : song.Lyrics = "") (h6 : song.Link = "") :
    SongPostgres.UpdateSong db id song st = (none, st) := by
  simp [SongPostgres.UpdateSong, SongPostgres.updateBuilder,
    SongPostgres.UpdateBuilder.addField, h1, h2, h3, h4, h5, h6]

/-- C10 at a concrete call, on a store whose connection is broken: no statement is sent, so
the call still succeeds. -/
theorem C10_update_nothing_is_noop_witness :
    SongPostgres.UpdateSong pg 1 ⟨5, "", "", "", "", "", ""⟩
        { storeABC with fault := some (.driver "connection refused") }
      = (none, { storeABC with fault := some (.driver "connection refused") }) :=
  C10_update_nothing_is_noop pg _ 1 ⟨5, "", "", "", "", "", ""⟩ rfl rfl rfl rfl rfl rfl

/-! ## Storage: delete -/

theorem filter_ne_eq_self_of_forall (songs : List Song) (id : Int)
    (h : ∀ r ∈ songs, r.ID ≠ id) : songs.filter (fun r => decide (r.ID ≠ id)) = songs := by
  rw [List.filter_eq_self]
  intro r hr
  simpa using h r hr

theorem filter_eq_length_zero_iff (songs : List Song) (id : Int) :
    (((songs.filter (fun r => decide (r.ID = id))).length : Int) = 0)
      ↔ ∀ r ∈ songs, r.ID ≠ id := by
  rw [Int.natCast_eq_zero, List.length_eq_zero, List.filter_eq_nil_iff]
  simp

/-- C5: when the DELETE statement executes without error, storage `DeleteSong(id)` returns
the not-found error exactly when no row has that id, and then leaves the store unchanged;
when a row has that id it returns success, the rows with that id are gone and all other
rows are unchanged. -/
theorem C5_delete_reports_not_found (st : Store) (id : Int) (hf : st.fault = none) :
    ((SongPostgres.DeleteSong pg id st).1 = some (.errorf "no song found with id %d" id)
        ↔ ∀ r ∈ st.songs, r.ID ≠ id)
      ∧ ((∀ r ∈ st.songs, r.ID ≠ id) → (SongPostgres.DeleteSong pg id st).2 = st)
      ∧ ((∃ r ∈ st.songs, r.ID = id) →
          SongPostgres.DeleteSong pg id st
            = (none, { st with songs := st.songs.filter (fun r => r.ID ≠ id) })) := by
  have hz := filter_eq_length_zero_iff st.songs id
  refine ⟨?_, ?_, ?_⟩
  · by_cases hno : ∀ r ∈ st.songs, r.ID ≠ id
    · simp only [SongPostgres.DeleteSong, pg, postgres.Exec, hf, hz.mpr hno, if_true]
      exact iff_of_true trivial hno
    · have hnz := mt hz.mp hno
      simp only [SongPostgres.DeleteSong, pg, postgres.Exec, hf, hnz, if_false]
      simp [hno]
  · intro hno
    simp only [SongPostgres.DeleteSong, pg, postgres.Exec, hf, hz.mpr hno, if_true]
    rw [filter_ne_eq_self_of_forall st.songs id hno]
    cases st
    simp at hf
    simp [hf]
  · intro hex
    have hno : ¬ ∀ r ∈ st.songs, r.ID ≠ id := by
      obtain ⟨r, hr, hid⟩ := hex
      exact fun h => h r hr hid
    have hnz := mt hz.mp hno
    simp only [SongPostgres.DeleteSong, pg, postgres.Exec, hf, hnz, if_false]

/-- C5 at a concrete store: deleting the absent id 7 and the present id 1. -/
theorem C5_delete_reports_not_found_witness :
    ((SongPostgres.DeleteSong pg 7 storeABC).1 = some (.errorf "no song found with id %d" 7)
        ↔ ∀ r ∈ storeABC.songs, r.ID ≠ 7)
      ∧ ((∀ r ∈ storeABC.songs, r.ID ≠ 7) → (SongPostgres.DeleteSong pg 7 storeABC).2 = storeABC)
      ∧ ((∃ r ∈ storeABC.songs, r.ID = 7) →
          SongPostgres.DeleteSong pg 7 storeABC
            = (none, { storeABC with songs := storeABC.songs.filter (fun r => r.ID ≠ 7) })) :=
  C5_delete_reports_not_found storeABC 7 rfl

/-! ## Text fetch for an id no song has -/

theorem any_id_eq_false_of_forall (songs : List Song) (id : Int)
    (h : ∀ r ∈ songs, r.ID ≠ id) : songs.any (fun r => decide (r.ID = id)) = false := by
  rw [List.any_eq_false]
  intro r hr
  simpa using h r hr

/-- Storage `GetSongText` on an id no row has: the existence check answers with the
not-found error. -/
theorem GetSongText_not_found (st : Store) (id : Int) (hf : st.fault = none)
    (hno : ∀ r ∈ st.songs, r.ID ≠ id) :
    SongPostgres.GetSongText pg id st
      = (.error (.errorf "song with id %d does not exist" id), st) := by
  simp [SongPostgres.GetSongText, DB.QueryRow, pg, postgres.Query, hf, scanBool,
    any_id_eq_false_of_forall st.songs id hno]

/-- Storage `GetSongText` on a broken connection: the driver's error is returned. -/
theorem GetSongText_fault (st : Store) (id : Int) (e : GoError) (hf : st.fault = some e) :
    SongPostgres.GetSongText pg id st = (.error e, st) := by
  simp [SongPostgres.GetSongText, DB.QueryRow, pg, postgres.Query, hf]

/-- C6 (the claim fails): for the absent id 7 the Get-text handler writes the very same
response, status 500 with the body "Failed to get text", as it does when the connection to
the database is broken. -/
theorem C6_not_found_same_as_fault :
    (∀ r ∈ storeABC.songs, r.ID ≠ 7)
      ∧ (Handler.GetSongText (NewService pg) (textRequest "7" "1" "5") storeABC).1
        = (Handler.GetSongText (NewService pg) (textRequest "7" "1" "5")
            { storeABC with fault := some (.driver "connection refused") }).1
      ∧ (Handler.GetSongText (NewService pg) (textRequest "7" "1" "5") storeABC).1
        = respondH 500 [("error", "Failed to get text")] := by
  decide

/-- C6 (amended): for an id no stored song has, storage `GetSongText` fails with the
not-found error "song with id %d does not exist", which differs from every driver error;
the Get-text handler answers it with status 500 and the body "Failed to get text", the
response it also gives when the storage call fails with a driver error. -/
theorem C6_not_found_only_in_storage (c : Context) (st : Store) (id page limit : Int)
    (hid : strconv.Atoi (c.Param "id") = (id, none))
    (hpage : strconv.Atoi (c.DefaultQuery "page" "1") = (page, none))
    (hlimit : strconv.Atoi (c.DefaultQuery "limit" "5") = (limit, none))
    (hf : st.fault = none) (hno : ∀ r ∈ st.songs, r.ID ≠ id) :
    SongPostgres.GetSongText pg id st
        = (.error (.errorf "song with id %d does not exist" id), st)
      ∧ (∀ msg, GoError.errorf "song with id %d does not exist" id ≠ .driver msg)
      ∧ Handler.GetSongText (NewService pg) c st
        = (respondH 500 [("error", "Failed to get text")], st)
      ∧ ∀ e, (Handler.GetSongText (NewService pg) c { st with fault := some e }).1
        = respondH 500 [("error", "Failed to get text")] := by
  refine ⟨GetSongText_not_found st id hf hno, ?_, ?_, ?_⟩
  · intro msg h
    cases h
  · simp [Handler.GetSongText, hid, hpage, hlimit, NewService,
      GetSongText_not_found st id hf hno, StatusInternalServerError]
  · intro e
    simp [Handler.GetSongText, hid, hpage, hlimit, NewService,
      GetSongText_fault { st with fault := some e } id e rfl, StatusInternalServerError]

/-- C6 (amended) at a concrete request: the absent id 7 on the one-song store. -/
theorem C6_not_found_only_in_storage_witness :
    SongPostgres.GetSongText pg 7 storeABC
        = (.error (.errorf "song with id %d does not exist" 7), storeABC)
      ∧ (∀ msg, GoError.errorf "song with id %d does not exist" 7 ≠ .driver msg)
      ∧ Handler.GetSongText (NewService pg) (textRequest "7" "1" "5") storeABC
        = (respondH 500 [("error", "Failed to get text")], storeABC)
      ∧ ∀ e, (Handler.GetSongText (NewService pg) (textRequest "7" "1" "5")
            { storeABC with fault := some e }).1
        = respondH 500 [("error", "Failed to get text")] :=
  C6_not_found_only_in_storage (textRequest "7" "1" "5") storeABC 7 1 5 (by decide)
    (by decide) (by decide) rfl (by decide)

/-! ## Storage: list -/

theorem scanSong_songRow (r : Song) : scanSong (postgres.songRow r) = .ok r := by
  cases r; rfl

theorem scanAll_songRows (rows : List Song) :
    ∀ acc : List Song,
      SongPostgres.scanAll (rows.map postgres.songRow) acc = .ok (acc ++ rows) := by
  induction rows with
  | nil => intro acc; simp [SongPostgres.scanAll]
  | cons r rest ih =>
    intro acc
    simp [SongPostgres.scanAll, scanSong_songRow, ih]

/-- What storage `GetSongs` returns on the PostgreSQL model when it succeeds: the rows that
satisfy the WHERE condition, without the first OFFSET ones, cut after LIMIT. -/
theorem GetSongs_ok (st st1 : Store) (filter : String) (page limit : Int) (songs : List Song)
    (hok : SongPostgres.GetSongs pg filter page limit st = (.ok songs, st1)) :
    0 ≤ limit ∧ 0 ≤ wrapInt (wrapInt (page - 1) * limit) ∧ st1 = st
      ∧ songs = (((st.songs.filter (postgres.whereFilter ("%" ++ filter ++ "%"))).drop
          (wrapInt (wrapInt (page - 1) * limit)).toNat).take limit.toNat) := by
  unfold SongPostgres.GetSongs at hok
  simp only [pg, postgres.Query] at hok
  cases hf : st.fault with
  | some e => simp [hf] at hok
  | none =>
    simp only [hf] at hok
    by_cases hl : limit < 0
    · simp [hl] at hok
    · by_cases ho : wrapInt (wrapInt (page - 1) * limit) < 0
      · simp [hl, ho] at hok
      · simp only [hl, ho, if_false] at hok
        by_cases hm : SongPostgres.makePanics limit
        · simp [hm] at hok
        · simp only [hm, if_false] at hok
          rw [scanAll_songRows] at hok
          simp only [List.nil_append, Prod.mk.injEq, Attempt.ok.injEq] at hok
          exact ⟨not_lt.mp hl, not_lt.mp ho, hok.2.symm, hok.1.symm⟩

/-- C7: when storage `GetSongs(filter, page, limit)` succeeds (for any page and limit, in
particular for page >= 1 and limit >= 1) the returned list has at most `limit` songs; it is
the LIMIT-long cut, after the OFFSET computed as the Go value of `(page-1)*limit`, of the
rows satisfying the WHERE condition. -/
theorem C7_list_size_bound (st st1 : Store) (filter : String) (page limit : Int)
    (songs : List Song)
    (hok : SongPostgres.GetSongs pg filter page limit st = (.ok songs, st1)) :
    (songs.length : Int) ≤ limit
      ∧ songs = (((st.songs.filter (postgres.whereFilter ("%" ++ filter ++ "%"))).drop
          (wrapInt (wrapInt (page - 1) * limit)).toNat).take limit.toNat) := by
  obtain ⟨h0, _, _, hs⟩ := GetSongs_ok st st1 filter page limit songs hok
  refine ⟨?_, hs⟩
  have hlen : songs.length ≤ limit.toNat := by
    rw [hs]; exact List.length_take_le _ _
  have : ((limit.toNat : Nat) : Int) = limit := Int.toNat_of_nonneg h0
  omega

/-- C7 at a concrete call: page 1 with limit 1 on the one-song store. -/
theorem C7_list_size_bound_witness :
    ((storeABC.songs.length : Nat) : Int) ≤ 1
      ∧ storeABC.songs = (((storeABC.songs.filter (postgres.whereFilter ("%" ++ "" ++ "%"))).drop
          (wrapInt (wrapInt (1 - 1) * 1)).toNat).take (1 : Int).toNat) :=
  C7_list_size_bound storeABC storeABC "" 1 1 storeABC.songs rfl

/-! ## The WHERE condition of the list statement -/

theorem lowerChar_upper_not_wild (n : Nat) (h1 : 65 ≤ n) (h2 : n ≤ 90) :
    Char.ofNat (n + 32) ≠ '%' ∧ Char.ofNat (n + 32) ≠ '_' ∧ Char.ofNat (n + 32) ≠ '\\' := by
  interval_cases n <;> decide

theorem lowerChar_not_wild (c : Char) (h : c ≠ '%' ∧ c ≠ '_' ∧ c ≠ '\\') :
    postgres.lowerChar c ≠ '%' ∧ postgres.lowerChar c ≠ '_' ∧ postgres.lowerChar c ≠ '\\' := by
  unfold postgres.lowerChar
  split_ifs with hc
  · exact lowerChar_upper_not_wild c.toNat hc.1 hc.2
  · exact h

theorem anySuffix_iff (f : List Char → Bool) (t : List Char) :
    postgres.anySuffix f t = true ↔ ∃ u, u <:+ t ∧ f u = true := by
  induction t with
  | nil =>
    simp [postgres.anySuffix]
  | cons c cs ih =>
    simp only [postgres.anySuffix, Bool.or_eq_true, ih]
    constructor
    · rintro (h | ⟨u, hu, hf⟩)
      · exact ⟨c :: cs, List.suffix_refl _, h⟩
      · exact ⟨u, hu.trans (List.suffix_cons c cs), hf⟩
    · rintro ⟨u, hu, hf⟩
      rcases List.suffix_cons_iff.mp hu with h | h
      · left; rw [← h]; exact hf
      · right; exact ⟨u, h, hf⟩

theorem likeMatch_cons (p : Char) (ps s : List Char) :
    postgres.likeMatch (p :: ps) s =
      if p = '%' then postgres.anySuffix (postgres.likeMatch ps) s
      else if p = '_' then
        match s with
        | [] => false
        | _ :: rest => postgres.likeMatch ps rest
      else if p = '\\' then
        match ps with
        | [] => false
        | q :: qs =>
          match s with
          | [] => false
          | d :: rest => decide (q = d) && postgres.likeMatch qs rest
      else
        match s with
        | [] => false
        | d :: rest => decide (p = d) && postgres.likeMatch ps rest := by
  cases ps <;> rfl

theorem likeMatch_nil (s : List Char) : postgres.likeMatch [] s = s.isEmpty := by
  rfl

theorem likeMatch_percent (u : List Char) : postgres.likeMatch ['%'] u = true := by
  rw [likeMatch_cons, if_pos rfl, anySuffix_iff]
  exact ⟨[], List.nil_suffix, by simp [likeMatch_nil]⟩

theorem likeMatch_literal_run (lf : List Char)
    (hfree : ∀ c ∈ lf, c ≠ '%' ∧ c ≠ '_' ∧ c ≠ '\\') :
    ∀ u : List Char, postgres.likeMatch (lf ++ ['%']) u = true ↔ lf <+: u := by
  induction lf with
  | nil =>
    intro u
    simp [likeMatch_percent]
  | cons c rest ih =>
    intro u
    obtain ⟨h1, h2, h3⟩ := hfree c (List.mem_cons_self _ _)
    have ih1 := ih (fun d hd => hfree d (List.mem_cons_of_mem _ hd))
    rw [List.cons_append, likeMatch_cons, if_neg h1, if_neg h2, if_neg h3]
    cases u with
    | nil => simp
    | cons d ds =>
      simp only [Bool.and_eq_true, decide_eq_true_eq, ih1 ds, List.cons_prefix_cons]

theorem likeMatch_contains (lf t : List Char)
    (hfree : ∀ c ∈ lf, c ≠ '%' ∧ c ≠ '_' ∧ c ≠ '\\') :
    postgres.likeMatch ('%' :: (lf ++ ['%'])) t = true ↔ lf <:+: t := by
  rw [likeMatch_cons, if_pos rfl, anySuffix_iff, List.infix_iff_prefix_suffix]
  constructor
  · rintro ⟨u, hu, hm⟩
    exact ⟨u, (likeMatch_literal_run lf hfree u).mp hm, hu⟩
  · rintro ⟨u, hp, hu⟩
    exact ⟨u, hu, (likeMatch_literal_run lf hfree u).mpr hp⟩

theorem ILIKE_contains (filter text : String) (hfree : WildcardFree filter) :
    postgres.ILIKE text ("%" ++ filter ++ "%") = true ↔ ContainsFold filter text := by
  unfold postgres.ILIKE ContainsFold
  have hd : ("%" ++ filter ++ "%").data = '%' :: (filter.data ++ ['%']) := by
    simp [String.data_append]
  have hl : postgres.lowerChar '%' = '%' := by decide
  rw [hd]
  simp only [List.map_cons, List.map_append, List.map_nil, hl]
  apply likeMatch_contains
  intro c hc
  obtain ⟨d, hd1, hd2⟩ := List.mem_map.mp hc
  rw [← hd2]
  exact lowerChar_not_wild d (hfree d hd1)

/-- C9 (the claim fails): with the filter consisting of one underscore, a song whose group
name, title and lyrics are "a", "b" and "c" satisfies the WHERE condition `GetSongs`
issues, although the filter is not empty and occurs in none of the three fields. -/
theorem C9_underscore_is_a_wildcard :
    postgres.whereFilter ("%" ++ "_" ++ "%") ⟨1, "a", "b", "", "", "c", ""⟩ = true
      ∧ ¬ ("_" = "" ∨ ContainsFold "_" "a" ∨ ContainsFold "_" "b" ∨ ContainsFold "_" "c") := by
  decide

/-- C9 (amended): for every filter string free of percent, underscore and backslash, a
stored song satisfies the WHERE condition `GetSongs` issues (pattern percent + filter +
percent matched with ILIKE against group_name, song and lyrics, or pattern empty) if and
only if the filter is empty or occurs, compared case-insensitively, as a contiguous
substring of the group name, the title or the lyrics. -/
theorem C9_filter_semantics (filter : String) (r : Song) (hfree : WildcardFree filter) :
    postgres.whereFilter ("%" ++ filter ++ "%") r = true
      ↔ (filter = "" ∨ ContainsFold filter r.GroupName ∨ ContainsFold filter r.SongName
          ∨ ContainsFold filter r.Lyrics) := by
  have hne : ("%" ++ filter ++ "%") ≠ "" := by
    intro h
    have := congrArg String.data h
    simp [String.data_append] at this
  have hempty : filter = "" → ContainsFold filter r.GroupName := by
    intro h
    subst h
    exact List.nil_infix
  simp only [postgres.whereFilter, Bool.or_eq_true, decide_eq_true_eq, hne, false_or,
    ILIKE_contains _ _ hfree]
  constructor
  · rintro ((h | h) | h)
    · exact Or.inr (Or.inl h)
    · exact Or.inr (Or.inr (Or.inl h))
    · exact Or.inr (Or.inr (Or.inr h))
  · rintro (h | h | h | h)
    · exact Or.inl (Or.inl (hempty h))
    · exact Or.inl (Or.inl h)
    · exact Or.inl (Or.inr h)
    · exact Or.inr h

/-- C9 (amended) at a concrete filter: "mu" against a song of the group "Muse". -/
theorem C9_filter_semantics_witness :
    postgres.whereFilter ("%" ++ "mu" ++ "%") ⟨1, "Muse", "Uprising", "", "", "", ""⟩ = true
      ↔ ("mu" = "" ∨ ContainsFold "mu" "Muse" ∨ ContainsFold "mu" "Uprising"
          ∨ ContainsFold "mu" "") :=
  C9_filter_semantics "mu" ⟨1, "Muse", "Uprising", "", "", "", ""⟩ (by decide)

/-! ## Add, then list -/

/-- Storage `GetSongs` on a store that answers, for a non-negative LIMIT and OFFSET and a
limit the allocation accepts. -/
theorem GetSongs_pg (st : Store) (filter : String) (page limit : Int)
    (hf : st.fault = none) (hl : 0 ≤ limit) (ho : 0 ≤ wrapInt (wrapInt (page - 1) * limit))
    (hm : ¬ SongPostgres.makePanics limit) :
    SongPostgres.GetSongs pg filter page limit st
      = (.ok (((st.songs.filter (postgres.whereFilter ("%" ++ filter ++ "%"))).drop
          (wrapInt (wrapInt (page - 1) * limit)).toNat).take limit.toNat), st) := by
  unfold SongPostgres.GetSongs
  simp only [pg, postgres.Query, hf, not_lt.mpr hl, not_lt.mpr ho, hm, if_false]
  rw [scanAll_songRows]
  simp

theorem whereFilter_no_filter (r : Song) :
    postgres.whereFilter ("%" ++ "" ++ "%") r = true := by
  have h : postgres.ILIKE r.GroupName ("%" ++ "" ++ "%") = true :=
    (ILIKE_contains "" r.GroupName (by decide)).mpr List.nil_infix
  unfold postgres.whereFilter
  rw [h]
  simp only [Bool.or_true, Bool.true_or]

/-- Storage `AddSong` on success: the store gained exactly one row, at the end, carrying the
six fields of the song and the next identifier of the sequence. -/
theorem AddSong_ok (st st1 : Store) (song : Song)
    (hadd : SongPostgres.AddSong pg song st = (none, st1)) :
    st1.fault = none
      ∧ st1.songs = st.songs ++ [⟨st.nextID, song.GroupName, song.SongName, song.ReleaseDate,
          song.Text, song.Lyrics, song.Link⟩] := by
  obtain ⟨songs, nid, fault⟩ := st
  cases fault with
  | some e => simp [SongPostgres.AddSong, pg, postgres.Exec] at hadd
  | none =>
    simp only [SongPostgres.AddSong, pg, postgres.Exec] at hadd
    split_ifs at hadd with hdup
    · simp at hadd
    · simp only [Prod.mk.injEq, true_and] at hadd
      subst hadd
      exact ⟨rfl, rfl⟩

/-- C8 (the claim fails): on a store that already holds ten songs, `AddSong` succeeds and
the list fetched with no filter, page 1 and limit 10 is the ten old songs; none of them
matches the added song. -/
theorem C8_added_song_beyond_first_page :
    (SongPostgres.AddSong pg newSong storeTen).1 = none
      ∧ (Handler.GetSongs (NewService pg) listRequest
            (SongPostgres.AddSong pg newSong storeTen).2).1
          = .responded ⟨200, "application/json; charset=utf-8", .songs storeTen.songs⟩
      ∧ ∀ s ∈ storeTen.songs, ¬ SameFields s newSong := by
  decide

/-- C8 (amended): for every store holding fewer than ten songs and every song (in
particular one with non-empty group and title), after `AddSong(song)` succeeds the List
handler called without query arguments (filter empty, page 1, limit 10) answers 200 with a
list that contains a song whose group name, title, release date, text, lyrics and link
equal those of the added song. -/
theorem C8_add_list_round_trip (st st1 : Store) (song : Song) (c : Context)
    (hq : c.QueryArgs = []) (hlen : st.songs.length < 10)
    (hadd : SongPostgres.AddSong pg song st = (none, st1)) :
    ∃ songs, Handler.GetSongs (NewService pg) c st1
        = (.responded ⟨200, "application/json; charset=utf-8", .songs songs⟩, st1)
      ∧ ∃ s ∈ songs, SameFields s song := by
  obtain ⟨hf, hsongs⟩ := AddSong_ok st st1 song hadd
  have hpage : strconv.Atoi "1" = (1, none) := by decide
  have hlimit : strconv.Atoi "10" = (10, none) := by decide
  have hoff : wrapInt (wrapInt (1 - 1) * 10) = 0 := by decide
  have hget := GetSongs_pg st1 "" 1 10 hf (by decide) (by rw [hoff]) (by decide)
  have hall : st1.songs.filter (postgres.whereFilter ("%" ++ "" ++ "%")) = st1.songs := by
    rw [List.filter_eq_self]
    intro r _
    exact whereFilter_no_filter r
  have hlen1 : st1.songs.length ≤ (10 : Int).toNat := by
    rw [hsongs]
    simp only [List.length_append, List.length_singleton]
    have : (10 : Int).toNat = 10 := by decide
    omega
  rw [hoff, hall] at hget
  simp only [Int.toNat_zero, List.drop_zero, List.take_of_length_le hlen1] at hget
  refine ⟨st1.songs, ?_, ?_⟩
  · simp [Handler.GetSongs, Context.Query, Context.DefaultQuery, hq, lookupFirst, hpage,
      hlimit, NewService, hget, StatusOK]
  · refine ⟨⟨st.nextID, song.GroupName, song.SongName, song.ReleaseDate, song.Text,
      song.Lyrics, song.Link⟩, ?_, ?_⟩
    · rw [hsongs]; simp
    · exact ⟨rfl, rfl, rfl, rfl, rfl, rfl⟩

/-- C8 (amended) at a concrete store: the song is added to the one-song store. -/
theorem C8_add_list_round_trip_witness :
    ∃ songs, Handler.GetSongs (NewService pg) listRequest (SongPostgres.AddSong pg newSong storeABC).2
        = (.responded ⟨200, "application/json; charset=utf-8", .songs songs⟩,
            (SongPostgres.AddSong pg newSong storeABC).2)
      ∧ ∃ s ∈ songs, SameFields s newSong :=
  C8_add_list_round_trip storeABC _ newSong listRequest rfl (by decide) rfl


/-! ## Update of an id no row has; identifiers -/

/-- Storage `UpdateSong` on a store that answers: the call succeeds and every row with the
given id is merged with the partial song. -/
theorem UpdateSong_pg (st : Store) (id : Int) (song : Song) (hf : st.fault = none) :
    SongPostgres.UpdateSong pg id song st
      = (none, { st with
          songs := st.songs.map (fun r => if r.ID = id then mergedRow r song else r) }) := by
  obtain ⟨sid, g, s, rd, t, l, lk⟩ := song
  obtain ⟨songs, nid, fault⟩ := st
  simp only at hf
  subst hf
  by_cases h1 : g = "" <;> by_cases h2 : s = "" <;> by_cases h3 : rd = "" <;>
  by_cases h4 : t = "" <;> by_cases h5 : l = "" <;> by_cases h6 : lk = "" <;>
  simp [SongPostgres.UpdateSong, SongPostgres.updateBuilder,
    SongPostgres.UpdateBuilder.addField, h1, h2, h3, h4, h5, h6, pg, postgres.Exec,
    postgres.execUpdate, postgres.resolveSet, postgres.resolve, postgres.applySet,
    postgres.setColumn, postgres.refused, wrapInt, mergedRow]

theorem map_merge_eq_self_of_forall (songs : List Song) (id : Int) (song : Song)
    (h : ∀ r ∈ songs, r.ID ≠ id) :
    songs.map (fun r => if r.ID = id then mergedRow r song else r) = songs := by
  induction songs with
  | nil => rfl
  | cons r rest ih =>
    have hr : r.ID ≠ id := h r (List.mem_cons_self _ _)
    simp only [List.map_cons, if_neg hr]
    rw [ih (fun x hx => h x (List.mem_cons_of_mem _ hx))]

theorem DeleteSong_pg_absent (st : Store) (id : Int) (hf : st.fault = none)
    (hno : ∀ r ∈ st.songs, r.ID ≠ id) :
    SongPostgres.DeleteSong pg id st
      = (some (.errorf "no song found with id %d" id), st) := by
  have hz := (filter_eq_length_zero_iff st.songs id).mpr hno
  simp only [SongPostgres.DeleteSong, pg, postgres.Exec, hf, hz, if_true]
  rw [filter_ne_eq_self_of_forall st.songs id hno]
  cases st
  simp at hf
  simp [hf]

/-- C11: on a store that has no row with identifier `id` and executes the UPDATE without
error, storage `UpdateSong(id, partial)` returns success and leaves the store unchanged,
whereas `DeleteSong` on the same id returns the not-found error. -/
theorem C11_update_absent_id_succeeds (st : Store) (id : Int) (song : Song)
    (hf : st.fault = none) (hno : ∀ r ∈ st.songs, r.ID ≠ id) :
    SongPostgres.UpdateSong pg id song st = (none, st)
      ∧ SongPostgres.DeleteSong pg id st
        = (some (.errorf "no song found with id %d" id), st) := by
  refine ⟨?_, DeleteSong_pg_absent st id hf hno⟩
  rw [UpdateSong_pg st id song hf, map_merge_eq_self_of_forall st.songs id song hno]

/-- C11 at a concrete call: a new title for the absent id 7 on the one-song store. -/
theorem C11_update_absent_id_succeeds_witness :
    SongPostgres.UpdateSong pg 7 ⟨0, "", "New title", "", "", "", ""⟩ storeABC = (none, storeABC)
      ∧ SongPostgres.DeleteSong pg 7 storeABC
        = (some (.errorf "no song found with id %d" 7), storeABC) :=
  C11_update_absent_id_succeeds storeABC 7 ⟨0, "", "New title", "", "", "", ""⟩ rfl
    (by decide)


theorem addField_clause {b : SongPostgres.UpdateBuilder} {column field : String}
    {a : SetClause} (h : a ∈ (b.addField column field).setClauses) :
    a ∈ b.setClauses ∨ a.column = column := by
  unfold SongPostgres.UpdateBuilder.addField at h
  split_ifs at h with hfield
  · simp only [List.mem_append, List.mem_singleton] at h
    rcases h with h | h
    · exact Or.inl h
    · right; rw [h]
  · exact Or.inl h

/-- Every assignment `UpdateSong` builds names one of the six text columns. -/
theorem updateBuilder_columns (song : Song) (a : SetClause)
    (h : a ∈ (SongPostgres.updateBuilder song).setClauses) :
    a.column ∈ ["group_name", "song", "release_date", "text", "lyrics", "link"] := by
  unfold SongPostgres.updateBuilder at h
  rcases addField_clause h with h | h
  · rcases addField_clause h with h | h
    · rcases addField_clause h with h | h
      · rcases addField_clause h with h | h
        · rcases addField_clause h with h | h
          · rcases addField_clause h with h | h
            · simp at h
            · simp [h]
          · simp [h]
        · simp [h]
      · simp [h]
    · simp [h]
  · simp [h]

/-- The placeholder of the WHERE clause is bound to the path id. -/
theorem updateBuilder_where (song : Song) (id : Int) :
    postgres.resolve ((SongPostgres.updateBuilder song).values ++ [.int id])
      (SongPostgres.updateBuilder song).valueIndex = some (.int id) := by
  obtain ⟨sid, g, s, rd, t, l, lk⟩ := song
  by_cases h1 : g = "" <;> by_cases h2 : s = "" <;> by_cases h3 : rd = "" <;>
  by_cases h4 : t = "" <;> by_cases h5 : l = "" <;> by_cases h6 : lk = "" <;>
  simp [SongPostgres.updateBuilder, SongPostgres.UpdateBuilder.addField, h1, h2, h3, h4, h5,
    h6, postgres.resolve, wrapInt]

theorem UpdateSong_pg_fault (st : Store) (id : Int) (song : Song) (e : GoError)
    (hf : st.fault = some e) : (SongPostgres.UpdateSong pg id song st).2 = st := by
  unfold SongPostgres.UpdateSong
  simp only [pg, postgres.Exec, hf]
  split_ifs <;> rfl

theorem map_ID_merge (songs : List Song) (id : Int) (song : Song) :
    (songs.map (fun r => if r.ID = id then mergedRow r song else r)).map Song.ID
      = songs.map Song.ID := by
  rw [List.map_map]
  apply List.map_congr_left
  intro r _
  simp only [Function.comp]
  split_ifs <;> rfl

/-- C12: whatever the partial's own ID field, the statement `UpdateSong` builds assigns only
the six text columns, never `id`; it does not depend on that field; its WHERE placeholder
is bound to the path id; so on the PostgreSQL model the identifiers of the rows are the
same, in the same order, after any update.  Likewise `AddSong` does not depend on the
payload's ID field, and the row it inserts carries the next value of the id sequence. -/
theorem C12_identifier_immutable (st : Store) (id payloadID : Int) (song : Song) :
    (∀ a ∈ (SongPostgres.updateBuilder song).setClauses, a.column ≠ "id")
      ∧ SongPostgres.updateBuilder { song with ID := payloadID }
          = SongPostgres.updateBuilder song
      ∧ postgres.resolve ((SongPostgres.updateBuilder song).values ++ [.int id])
          (SongPostgres.updateBuilder song).valueIndex = some (.int id)
      ∧ (∀ (σ : Type) (db : DB σ) (s : σ),
          SongPostgres.UpdateSong db id { song with ID := payloadID } s
            = SongPostgres.UpdateSong db id song s)
      ∧ (SongPostgres.UpdateSong pg id song st).2.songs.map Song.ID = st.songs.map Song.ID
      ∧ (∀ (σ : Type) (db : DB σ) (s : σ),
          SongPostgres.AddSong db { song with ID := payloadID } s
            = SongPostgres.AddSong db song s)
      ∧ (∀ st1, SongPostgres.AddSong pg song st = (none, st1) →
          ∃ row, st1.songs = st.songs ++ [row] ∧ row.ID = st.nextID
            ∧ st1.songs.map Song.ID = st.songs.map Song.ID ++ [st.nextID]) := by
  refine ⟨?_, rfl, updateBuilder_where song id, fun _ _ _ => rfl, ?_, fun _ _ _ => rfl, ?_⟩
  · intro a ha hid
    have hc := updateBuilder_columns song a ha
    rw [hid] at hc
    revert hc
    decide
  · cases hf : st.fault with
    | some e => rw [UpdateSong_pg_fault st id song e hf]
    | none =>
      rw [UpdateSong_pg st id song hf]
      exact map_ID_merge st.songs id song
  · intro st1 hadd
    obtain ⟨_, hsongs⟩ := AddSong_ok st st1 song hadd
    exact ⟨_, hsongs, rfl, by rw [hsongs]; simp⟩

/-! ## The routes -/

/-- C13 (evaluation of the code): the router built by `InitRoutes` and extended in `main`
has no route for `/info`; whatever the query arguments, `GET /info` is answered by the
engine with 404 "404 page not found" and the handler `GetInfo` never runs.  Called
directly, `GetInfo` would write the fixed detail object with status 200 without touching
the service. -/
theorem C13_info_route_not_registered {σ : Type} (services : Service σ)
    (swagger : Context → σ → Outcome × σ) (query : List (String × String)) (st : σ) :
    ServeHTTP (mainRouter services swagger) ⟨"GET", "/info", query, none⟩ st
        = (.outcome (.responded ⟨404, "text/plain", .text "404 page not found"⟩), st)
      ∧ ∀ c : Context, Handler.GetInfo services c st
        = (.responded ⟨200, "application/json; charset=utf-8", .detail infoDetail⟩, st) := by
  constructor
  · rfl
  · intro c
    rfl

/-! ## `strconv.Atoi` against the notion of a decimal integer literal -/

theorem foldl_digits_ge (l : List Char) :
    ∀ n, n ≤ l.foldl (fun n d => n * 10 + (d.toNat - 48)) n := by
  induction l with
  | nil => intro n; exact le_refl _
  | cons d rest ih =>
    intro n
    simp only [List.foldl_cons]
    exact le_trans (by omega) (ih _)

/-- What the digit loop returns, in terms of the digits the text starts with. -/
theorem parseDigits_spec (ds : List Char) :
    ∀ n, n ≤ strconv.maxUint64 →
      strconv.parseDigits ds n =
        if (leadingDigits ds).foldl (fun n d => n * 10 + (d.toNat - 48)) n ≥ 2 ^ 64 then
          .error .range
        else if ∀ d ∈ ds, IsDigit d then
          .ok (ds.foldl (fun n d => n * 10 + (d.toNat - 48)) n)
        else .error .invalid := by
  induction ds with
  | nil =>
    intro n hn
    unfold strconv.maxUint64 at hn
    simp only [leadingDigits, List.takeWhile_nil, List.foldl_nil, strconv.parseDigits]
    rw [if_neg (by omega), if_pos (by simp)]
  | cons c cs ih =>
    intro n hn
    unfold strconv.maxUint64 at hn
    by_cases hc : IsDigit c
    · have hc2 := hc
      unfold IsDigit at hc2
      have hlead : leadingDigits (c :: cs) = c :: leadingDigits cs := by
        simp [leadingDigits, List.takeWhile_cons, hc]
      have hall : (∀ d ∈ c :: cs, IsDigit d) ↔ ∀ d ∈ cs, IsDigit d := by
        simp [hc]
      simp only [strconv.parseDigits, strconv.digitVal, hc2, and_self, if_true, hlead,
        List.foldl_cons, hall, strconv.maxUint64]
      have hge := foldl_digits_ge (leadingDigits cs) (n * 10 + (c.toNat - 48))
      by_cases h1 : n ≥ (2 ^ 64 - 1) / 10 + 1
      · rw [if_pos h1, if_pos (by omega)]
      · rw [if_neg h1]
        by_cases h2 : n * 10 + (c.toNat - 48) > 2 ^ 64 - 1
        · rw [if_pos h2, if_pos (by omega)]
        · rw [if_neg h2]
          exact ih _ (by unfold strconv.maxUint64; omega)
    · have hc2 := hc
      unfold IsDigit at hc2
      have hlead : leadingDigits (c :: cs) = [] := by
        simp [leadingDigits, List.takeWhile_cons, hc]
      have hall : ¬ ∀ d ∈ c :: cs, IsDigit d := fun h => hc (h c (List.mem_cons_self _ _))
      simp only [strconv.parseDigits, strconv.digitVal, hc2, if_false, hlead, List.foldl_nil]
      rw [if_neg (by omega), if_neg hall]

theorem leadingDigits_of_digits (ds : List Char) (h : ∀ d ∈ ds, IsDigit d) :
    leadingDigits ds = ds := by
  unfold leadingDigits
  rw [List.takeWhile_eq_self_iff]
  intro d hd
  simpa using h d hd

/-- The result of `Atoi` after the sign has been split off: `c` is the first character of
the input and `ds` the characters after the optional sign. -/
theorem Atoi_core (s : String) (c : Char) (ds : List Char) :
    let r : Int × Option GoError :=
      match ds with
      | [] => (0, some (.numError s .invalid))
      | _ :: _ =>
        match strconv.parseDigits ds 0 with
        | .error .invalid => (0, some (.numError s .invalid))
        | .error .range =>
          if c = '-' then (minInt, some (.numError s .range))
          else (maxInt, some (.numError s .range))
        | .ok un =>
          if c = '-' then
            if un > 2 ^ 63 then (minInt, some (.numError s .range)) else (-(un : Int), none)
          else
            if un ≥ 2 ^ 63 then (maxInt, some (.numError s .range)) else ((un : Int), none)
    let v : Int := if c = '-' then -(digitsValue ds : Int) else (digitsValue ds : Int)
    (digitsValue (leadingDigits ds) ≥ 2 ^ 64 → r.1 = if c = '-' then minInt else maxInt)
      ∧ (¬ digitsValue (leadingDigits ds) ≥ 2 ^ 64 → (ds ≠ [] ∧ ∀ d ∈ ds, IsDigit d) →
          r.1 = clampInt v)
      ∧ (¬ digitsValue (leadingDigits ds) ≥ 2 ^ 64 → ¬ (ds ≠ [] ∧ ∀ d ∈ ds, IsDigit d) →
          r.1 = 0)
      ∧ (r.2 = none ↔ (ds ≠ [] ∧ ∀ d ∈ ds, IsDigit d) ∧ InIntRange v) := by
  intro r v
  cases ds with
  | nil =>
    have hr : r = (0, some (.numError s .invalid)) := rfl
    rw [hr]
    refine ⟨fun h => ?_, fun _ h => absurd rfl h.1, fun _ _ => rfl, ?_⟩
    · exact absurd h (by decide)
    · constructor
      · intro h; exact absurd h (by simp)
      · intro h; exact absurd rfl h.1.1
  | cons x xs =>
    have hspec := parseDigits_spec (x :: xs) 0 (by decide)
    have hdv : ∀ l : List Char,
        l.foldl (fun n d => n * 10 + (d.toNat - 48)) 0 = digitsValue l := fun _ => rfl
    rw [hdv, hdv] at hspec
    have hne : x :: xs ≠ [] := by simp
    by_cases hov : digitsValue (leadingDigits (x :: xs)) ≥ 2 ^ 64
    · have hr : r = if c = '-' then (minInt, some (.numError s .range))
          else (maxInt, some (.numError s .range)) := by
        simp only [r, hspec, if_pos hov]
      rw [hr]
      refine ⟨fun _ => ?_, fun h => absurd hov h, fun h => absurd hov h, ?_⟩
      · split_ifs <;> rfl
      · constructor
        · intro h
          split_ifs at h
        · intro h
          exfalso
          rw [leadingDigits_of_digits _ h.1.2] at hov
          have hv := h.2
          simp only [v, InIntRange, minInt, maxInt] at hv
          split_ifs at hv <;> omega
    · by_cases hall : ∀ d ∈ x :: xs, IsDigit d
      · have hr : r = if c = '-' then
              (if digitsValue (x :: xs) > 2 ^ 63 then (minInt, some (.numError s .range))
               else (-(digitsValue (x :: xs) : Int), none))
            else
              (if digitsValue (x :: xs) ≥ 2 ^ 63 then (maxInt, some (.numError s .range))
               else ((digitsValue (x :: xs) : Int), none)) := by
          simp only [r, hspec, if_neg hov, if_pos hall]
        rw [hr]
        have hov0 := hov
        rw [leadingDigits_of_digits _ hall] at hov
        simp only [v]
        generalize digitsValue (x :: xs) = un at hov ⊢
        refine ⟨fun h => absurd h hov0, fun _ _ => ?_, fun _ h => absurd ⟨hne, hall⟩ h, ?_⟩
        · unfold clampInt maxInt minInt
          by_cases hneg : c = '-'
          · simp only [hneg, if_true]
            by_cases hbig : un > 2 ^ 63
            · simp only [hbig, if_true]
              split_ifs <;> omega
            · simp only [hbig, if_false]
              split_ifs <;> omega
          · simp only [hneg, if_false]
            by_cases hbig : un ≥ 2 ^ 63
            · simp only [hbig, if_true]
              split_ifs <;> omega
            · simp only [hbig, if_false]
              split_ifs <;> omega
        · unfold InIntRange maxInt minInt
          by_cases hneg : c = '-'
          · simp only [hneg, if_true]
            by_cases hbig : un > 2 ^ 63
            · simp only [hbig, if_true]
              constructor
              · intro h; simp at h
              · intro h; omega
            · simp only [hbig, if_false]
              constructor
              · intro _; exact ⟨⟨hne, hall⟩, by omega, by omega⟩
              · intro _; trivial
          · simp only [hneg, if_false]
            by_cases hbig : un ≥ 2 ^ 63
            · simp only [hbig, if_true]
              constructor
              · intro h; simp at h
              · intro h; omega
            · simp only [hbig, if_false]
              constructor
              · intro _; exact ⟨⟨hne, hall⟩, by omega, by omega⟩
              · intro _; trivial
      · have hr : r = (0, some (.numError s .invalid)) := by
          simp only [r, hspec, if_neg hov, if_neg hall]
        rw [hr]
        refine ⟨fun h => absurd h hov, fun _ h => absurd h.2 hall, fun _ _ => rfl, ?_⟩
        constructor
        · intro h; exact absurd h (by simp)
        · intro h; exact absurd h.1.2 hall

/-- The pair `Atoi` returns, in terms of the digits of the string. -/
theorem Atoi_spec (s : String) :
    (LeadingDigitsOverflow s →
        (strconv.Atoi s).1 = if s.data.head? = some '-' then minInt else maxInt)
      ∧ (¬ LeadingDigitsOverflow s → IsDecimalInt s →
          (strconv.Atoi s).1 = clampInt (decimalValue s))
      ∧ (¬ LeadingDigitsOverflow s → ¬ IsDecimalInt s → (strconv.Atoi s).1 = 0)
      ∧ ((strconv.Atoi s).2 = none ↔ IsDecimalInt s ∧ InIntRange (decimalValue s)) := by
  obtain ⟨l⟩ := s
  cases l with
  | nil =>
    refine ⟨fun h => ?_, fun _ h => ?_, fun _ _ => rfl, ?_⟩
    · exact absurd h (by decide)
    · exact absurd h (by decide)
    · constructor
      · intro h; exact absurd h (by decide)
      · intro h; exact absurd h.1 (by decide)
  | cons c cs =>
    have hcore := Atoi_core ⟨c :: cs⟩ c (if c = '-' ∨ c = '+' then cs else c :: cs)
    have hhead : ((⟨c :: cs⟩ : String).data.head? = some '-') ↔ c = '-' := by
      simp
    have hval : decimalValue ⟨c :: cs⟩
        = if c = '-' then -(digitsValue (if c = '-' ∨ c = '+' then cs else c :: cs) : Int)
          else (digitsValue (if c = '-' ∨ c = '+' then cs else c :: cs) : Int) := by
      unfold decimalValue
      by_cases hneg : c = '-'
      · rw [if_pos (hhead.mpr hneg), if_pos hneg]; rfl
      · rw [if_neg (fun h => hneg (hhead.mp h)), if_neg hneg]; rfl
    have hsign : (if (⟨c :: cs⟩ : String).data.head? = some '-' then minInt else maxInt)
        = if c = '-' then minInt else maxInt := by
      by_cases hneg : c = '-'
      · rw [if_pos (hhead.mpr hneg), if_pos hneg]
      · rw [if_neg (fun h => hneg (hhead.mp h)), if_neg hneg]
    rw [hval, hsign]
    exact hcore

/-- On a string that is no decimal integer literal `Atoi` reports an error. -/
theorem Atoi_error_of_not_decimal (s : String) (h : ¬ IsDecimalInt s) :
    (strconv.Atoi s).2 ≠ none :=
  fun hnone => h ((Atoi_spec s).2.2.2.mp hnone).1

/-! ## Input parsing of the Get-text and List handlers -/

theorem Atoi_DefaultQuery (c : Context) (key dflt : String) (n : Int)
    (hd : strconv.Atoi dflt = (n, none)) :
    strconv.Atoi (c.DefaultQuery key dflt) = queryIntOr c key n := by
  unfold Context.DefaultQuery queryIntOr
  cases lookupFirst key c.QueryArgs with
  | none => simpa using hd
  | some v => rfl

/-- The handler `GetSongText` as a function of the three parsed inputs. -/
theorem GetSongText_run {σ : Type} (services : Service σ) (c : Context) (st : σ) :
    Handler.GetSongText services c st =
      match (strconv.Atoi (c.Param "id")).2 with
      | some _ => (respondH 400 [("error", "Invalid song ID")], st)
      | none =>
        match (queryIntOr c "page" 1).2 with
        | some _ => (respondH 400 [("error", "Invalid page number")], st)
        | none =>
          match (queryIntOr c "limit" 5).2 with
          | some _ => (respondH 400 [("error", "Invalid page size")], st)
          | none =>
            match services.GetSongText (strconv.Atoi (c.Param "id")).1 st with
            | (.error _, st1) => (respondH 500 [("error", "Failed to get text")], st1)
            | (.ok text, st1) =>
              (Handler.textPage text (queryIntOr c "page" 1).1 (queryIntOr c "limit" 5).1, st1) := by
  unfold Handler.GetSongText
  rw [Atoi_DefaultQuery c "page" "1" 1 (by decide), Atoi_DefaultQuery c "limit" "5" 5 (by decide)]
  rcases strconv.Atoi (c.Param "id") with ⟨id, _ | e1⟩
  · rcases queryIntOr c "page" 1 with ⟨page, _ | e2⟩
    · rcases queryIntOr c "limit" 5 with ⟨limit, _ | e3⟩
      · rfl
      · rfl
    · rfl
  · rfl

/-- C14: when the id path value, a supplied page value or a supplied limit value is not
accepted by `Atoi` (in particular when it is no decimal integer literal), the Get-text
handler answers 400 and does not call the service: for every service the state is
untouched.  When all three inputs parse, the handler runs with them, an absent page
counting as 1 and an absent limit as 5. -/
theorem C14_text_input_parsing {σ : Type} (services : Service σ) (c : Context) (st : σ) :
    (((strconv.Atoi (c.Param "id")).2 ≠ none
        ∨ (∃ v, lookupFirst "page" c.QueryArgs = some v ∧ (strconv.Atoi v).2 ≠ none)
        ∨ (∃ v, lookupFirst "limit" c.QueryArgs = some v ∧ (strconv.Atoi v).2 ≠ none)) →
      ∃ msg, Handler.GetSongText services c st = (respondH 400 [("error", msg)], st))
    ∧ (∀ s, ¬ IsDecimalInt s → (strconv.Atoi s).2 ≠ none)
    ∧ (lookupFirst "page" c.QueryArgs = none → queryIntOr c "page" 1 = (1, none))
    ∧ (lookupFirst "limit" c.QueryArgs = none → queryIntOr c "limit" 5 = (5, none))
    ∧ (∀ id page limit, strconv.Atoi (c.Param "id") = (id, none) →
        queryIntOr c "page" 1 = (page, none) → queryIntOr c "limit" 5 = (limit, none) →
        Handler.GetSongText services c st =
          match services.GetSongText id st with
          | (.error _, st1) => (respondH 500 [("error", "Failed to get text")], st1)
          | (.ok text, st1) => (Handler.textPage text page limit, st1)) := by
  refine ⟨?_, ?_, ?_, ?_, ?_⟩
  · intro h
    rw [GetSongText_run]
    cases hid : (strconv.Atoi (c.Param "id")).2 with
    | some e => exact ⟨_, rfl⟩
    | none =>
      cases hp : (queryIntOr c "page" 1).2 with
      | some e => exact ⟨_, rfl⟩
      | none =>
        cases hl : (queryIntOr c "limit" 5).2 with
        | some e => exact ⟨_, rfl⟩
        | none =>
          exfalso
          rcases h with h | ⟨v, hv, he⟩ | ⟨v, hv, he⟩
          · exact h hid
          · simp only [queryIntOr, hv] at hp
            exact he hp
          · simp only [queryIntOr, hv] at hl
            exact he hl
  · intro s hs
    exact Atoi_error_of_not_decimal s hs
  · intro h
    simp only [queryIntOr, h]
  · intro h
    simp only [queryIntOr, h]
  · intro id page limit hid hp hl
    rw [GetSongText_run, hid, hp, hl]

/-- C14 at a concrete request: the page value "two" on the one-song store. -/
theorem C14_text_input_parsing_witness :
    ∃ msg, Handler.GetSongText (NewService pg) (textRequest "1" "two" "5") storeABC
      = (respondH 400 [("error", msg)], storeABC) :=
  (C14_text_input_parsing (NewService pg) (textRequest "1" "two" "5") storeABC).1
    (Or.inr (Or.inl ⟨"two", rfl, by decide⟩))

theorem Atoi_fst_DefaultQuery (c : Context) (key dflt : String) (n : Int)
    (hd : strconv.Atoi dflt = (n, none)) :
    (strconv.Atoi (c.DefaultQuery key dflt)).1 = passedInt c key n := by
  unfold Context.DefaultQuery passedInt
  cases lookupFirst key c.QueryArgs with
  | none => simp [hd]
  | some v =>
    simp only [Option.getD_some]
    obtain ⟨h1, h2, h3, _⟩ := Atoi_spec v
    by_cases hov : LeadingDigitsOverflow v
    · rw [if_pos hov]; exact h1 hov
    · rw [if_neg hov]
      by_cases hv : IsDecimalInt v
      · rw [if_pos hv]; exact h2 hov hv
      · rw [if_neg hv]; exact h3 hov hv

/-- C15 (the claim fails): the page value 99999999999999999999 is not accepted by `Atoi`,
yet the List handler passes 9223372036854775807, not 0, to the service. -/
theorem C15_out_of_range_page_is_clamped :
    (strconv.Atoi "99999999999999999999").2 ≠ none
      ∧ (Handler.GetSongs recorder (listPageRequest "99999999999999999999") []).2
        = [("", 9223372036854775807, 10)] := by
  decide

/-- C15 (amended): for every query the List handler calls the service once, with the filter
(empty when absent), the page and the limit, where an absent page counts as 1 and an
absent limit as 10; a value whose digits after the optional sign, up to the first
non-digit, do not fit 64 bits counts as the largest `int` (the smallest after a minus
sign); any other value that is no decimal integer literal counts as 0, a literal outside
the range of `int` as the nearest bound, and any other literal (zero and negative ones
included) as its value.  The handler answers 200 with the service's list when the service
succeeds and 500 when it fails; when the service panics so does the handler, and the
engine's recovery answers 500.  No response is a 400. -/
theorem C15_list_input_parsing {σ : Type} (services : Service σ) (c : Context) (st : σ) :
    (Handler.GetSongs services c st =
        match services.GetSongs (c.Query "filter") (passedInt c "page" 1)
            (passedInt c "limit" 10) st with
        | (.panicked msg, st1) => (.panicked msg "", st1)
        | (.error _, st1) => (respondH 500 [("error", "Failed to get songs")], st1)
        | (.ok songs, st1) =>
          (.responded ⟨200, "application/json; charset=utf-8", .songs songs⟩, st1))
    ∧ (lookupFirst "filter" c.QueryArgs = none → c.Query "filter" = "")
    ∧ (lookupFirst "page" c.QueryArgs = none → passedInt c "page" 1 = 1)
    ∧ (lookupFirst "limit" c.QueryArgs = none → passedInt c "limit" 10 = 10)
    ∧ (∀ v, lookupFirst "page" c.QueryArgs = some v → InIntRange (decimalValue v) →
        IsDecimalInt v → passedInt c "page" 1 = decimalValue v)
    ∧ (∀ v, lookupFirst "limit" c.QueryArgs = some v → InIntRange (decimalValue v) →
        IsDecimalInt v → passedInt c "limit" 10 = decimalValue v)
    ∧ (∀ v, lookupFirst "page" c.QueryArgs = some v → ¬ LeadingDigitsOverflow v →
        ¬ IsDecimalInt v → passedInt c "page" 1 = 0)
    ∧ (∀ v, lookupFirst "limit" c.QueryArgs = some v → ¬ LeadingDigitsOverflow v →
        ¬ IsDecimalInt v → passedInt c "limit" 10 = 0)
    ∧ (∀ r, (Handler.GetSongs services c st).1 = .responded r →
        r.Status = 200 ∨ r.Status = 500)
    ∧ (∃ r, (ServeHTTP (Handler.InitRoutes services)
              ⟨"GET", "/songs/", c.QueryArgs, c.Body⟩ st).1 = .outcome (.responded r)
          ∧ (r.Status = 200 ∨ r.Status = 500)) := by
  have hrun : Handler.GetSongs services c st =
      match services.GetSongs (c.Query "filter") (passedInt c "page" 1)
          (passedInt c "limit" 10) st with
      | (.panicked msg, st1) => (.panicked msg "", st1)
      | (.error _, st1) => (respondH 500 [("error", "Failed to get songs")], st1)
      | (.ok songs, st1) =>
        (.responded ⟨200, "application/json; charset=utf-8", .songs songs⟩, st1) := by
    unfold Handler.GetSongs
    simp only [Atoi_fst_DefaultQuery c "page" "1" 1 (by decide),
      Atoi_fst_DefaultQuery c "limit" "10" 10 (by decide)]
    rfl
  have hctx : ∀ d : Context, d.QueryArgs = c.QueryArgs →
      Handler.GetSongs services d st = Handler.GetSongs services c st := by
    intro d hd
    unfold Handler.GetSongs Context.Query Context.DefaultQuery
    rw [hd]
  have hrange : ∀ v, InIntRange (decimalValue v) → IsDecimalInt v →
      ¬ LeadingDigitsOverflow v := by
    intro v hr hd hov
    unfold LeadingDigitsOverflow at hov
    unfold IsDecimalInt at hd
    rw [leadingDigits_of_digits _ hd.2] at hov
    unfold InIntRange decimalValue minInt maxInt at hr
    split_ifs at hr <;> omega
  have hclamp : ∀ x, InIntRange x → clampInt x = x := by
    intro x hx
    unfold InIntRange at hx
    unfold clampInt
    rw [if_neg (by omega), if_neg (by omega)]
  refine ⟨hrun, ?_, ?_, ?_, ?_, ?_, ?_, ?_, ?_, ?_⟩
  · intro h; simp [Context.Query, h]
  · intro h; simp [passedInt, h]
  · intro h; simp [passedInt, h]
  · intro v hv hr hd
    simp only [passedInt, hv, if_neg (hrange v hr hd), if_pos hd, hclamp _ hr]
  · intro v hv hr hd
    simp only [passedInt, hv, if_neg (hrange v hr hd), if_pos hd, hclamp _ hr]
  · intro v hv hov hd
    simp only [passedInt, hv, if_neg hov, if_neg hd]
  · intro v hv hov hd
    simp only [passedInt, hv, if_neg hov, if_neg hd]
  · intro r hr
    rw [hrun] at hr
    rcases hsv : services.GetSongs (c.Query "filter") (passedInt c "page" 1)
        (passedInt c "limit" 10) st with ⟨a, st1⟩
    rw [hsv] at hr
    cases a with
    | ok songs =>
      simp only [Outcome.responded.injEq] at hr
      rw [← hr]; exact Or.inl rfl
    | error e =>
      simp only [respondH, Outcome.responded.injEq] at hr
      rw [← hr]; exact Or.inr rfl
    | panicked msg => cases hr
  · have hroute : ServeHTTP (Handler.InitRoutes services)
          ⟨"GET", "/songs/", c.QueryArgs, c.Body⟩ st
        = match Handler.GetSongs services ⟨[], c.QueryArgs, c.Body⟩ st with
          | (.panicked _ contentType, st1) =>
            (.outcome (.responded ⟨StatusInternalServerError, contentType, .text ""⟩), st1)
          | (.responded resp, st1) => (.outcome (.responded resp), st1) := rfl
    rw [hroute, hctx ⟨[], c.QueryArgs, c.Body⟩ rfl, hrun]
    rcases services.GetSongs (c.Query "filter") (passedInt c "page" 1)
        (passedInt c "limit" 10) st with ⟨_ | _ | _, st1⟩
    · exact ⟨_, rfl, Or.inl rfl⟩
    · exact ⟨_, rfl, Or.inr rfl⟩
    · exact ⟨_, rfl, Or.inr rfl⟩

/-- C15 (amended) at a concrete request: page=-3 reaches the recording service as -3. -/
theorem C15_list_input_parsing_witness :
    passedInt (listPageRequest "-3") "page" 1 = decimalValue "-3" :=
  (C15_list_input_parsing recorder (listPageRequest "-3") []).2.2.2.2.1 "-3" rfl
    (by decide) (by decide)

/-! ## The verse list after normalisation -/

theorem ReplaceAll_marker (t : String) :
    strings.ReplaceAll t "\\n" "\n"
      = String.mk (strings.replaceAux ['\\', 'n'] ['\n'] 0 t.data) := rfl

theorem isPrefixOf_marker (c : Char) (cs : List Char) :
    List.isPrefixOf ['\\', 'n'] (c :: cs) = true ↔ c = '\\' ∧ cs.head? = some 'n' := by
  cases cs with
  | nil => simp [List.isPrefixOf]
  | cons d ds =>
    simp only [List.isPrefixOf, Bool.and_true, Bool.and_eq_true, beq_iff_eq, List.head?_cons,
      Option.some.injEq]
    constructor
    · rintro ⟨h1, h2⟩; exact ⟨h1.symm, h2.symm⟩
    · rintro ⟨h1, h2⟩; exact ⟨h1.symm, h2.symm⟩

theorem replaceAux_head (cs : List Char)
    (h : (strings.replaceAux ['\\', 'n'] ['\n'] 0 cs).head? = some 'n') :
    cs.head? = some 'n' := by
  cases cs with
  | nil => simp [strings.replaceAux] at h
  | cons d ds =>
    unfold strings.replaceAux at h
    split_ifs at h with hm
    · simp at h
    · simpa using h

theorem replaceAux_no_marker (s : List Char) :
    hasMarker (strings.replaceAux ['\\', 'n'] ['\n'] 0 s) = false
      ∧ hasMarker (strings.replaceAux ['\\', 'n'] ['\n'] 1 s) = false := by
  induction s with
  | nil => simp [strings.replaceAux, hasMarker]
  | cons c cs ih =>
    refine ⟨?_, ?_⟩
    · unfold strings.replaceAux
      split_ifs with hm
      · simp only [List.length_cons, List.length_nil, List.cons_append, List.nil_append,
          hasMarker]
        simp [ih.2]
      · simp only [hasMarker, ih.1, Bool.or_false, Bool.and_eq_false_iff,
          decide_eq_false_iff_not]
        by_contra hcon
        push_neg at hcon
        exact hm ((isPrefixOf_marker c cs).mpr ⟨hcon.1, replaceAux_head cs hcon.2⟩)
    · simp only [strings.replaceAux]
      exact ih.1

theorem splitAux_no_marker (s : List Char) (h : hasMarker s = false) :
    ∀ acc, strings.splitAux ['\\', 'n', '\\', 'n'] 0 acc s = [acc.reverse ++ s] := by
  induction s with
  | nil => intro acc; simp [strings.splitAux]
  | cons c cs ih =>
    intro acc
    simp only [hasMarker, Bool.or_eq_false_iff, Bool.and_eq_false_iff,
      decide_eq_false_iff_not] at h
    have hm : List.isPrefixOf ['\\', 'n', '\\', 'n'] (c :: cs) = false := by
      rw [Bool.eq_false_iff]
      intro hp
      have h2 : List.isPrefixOf ['\\', 'n'] (c :: cs) = true := by
        cases cs with
        | nil => simp [List.isPrefixOf] at hp
        | cons d ds =>
          simp only [List.isPrefixOf, Bool.and_eq_true, beq_iff_eq] at hp ⊢
          exact ⟨hp.1, hp.2.1, trivial⟩
      have := (isPrefixOf_marker c cs).mp h2
      rcases h.1 with h1 | h1
      · exact h1 this.1
      · exact h1 this.2
    unfold strings.splitAux
    rw [if_neg (by simp [hm])]
    rw [ih h.2 (c :: acc)]
    simp

theorem hasMarker_append_marker (l : List Char) : hasMarker (l ++ ['\\', 'n']) = true := by
  induction l with
  | nil => decide
  | cons c cs ih => simp [hasMarker, ih]

theorem HasSuffix_no_marker (s : String) (h : hasMarker s.data = false) :
    strings.HasSuffix s "\\n" = false := by
  rw [Bool.eq_false_iff]
  intro hs
  unfold strings.HasSuffix at hs
  have hd : ("\\n" : String).data = ['\\', 'n'] := rfl
  rw [hd, List.isSuffixOf_iff_suffix] at hs
  obtain ⟨l, hl⟩ := hs
  rw [← hl, hasMarker_append_marker] at h
  exact absurd h (by simp)

/-- After the newline replacement the verse list has exactly one element, the normalised
text itself. -/
theorem splitVerses_normalised (t : String) :
    Handler.splitVerses (strings.ReplaceAll t "\\n" "\n") = [strings.ReplaceAll t "\\n" "\n"] := by
  have hno : hasMarker (strings.ReplaceAll t "\\n" "\n").data = false := by
    rw [ReplaceAll_marker]
    exact (replaceAux_no_marker t.data).1
  have hsplit : strings.Split (strings.ReplaceAll t "\\n" "\n") "\\n\\n"
      = [strings.ReplaceAll t "\\n" "\n"] := by
    have hd : strings.Split (strings.ReplaceAll t "\\n" "\n") "\\n\\n"
        = (strings.splitAux ['\\', 'n', '\\', 'n'] 0 []
            (strings.ReplaceAll t "\\n" "\n").data).map String.mk := rfl
    rw [hd, splitAux_no_marker _ hno]
    rfl
  unfold Handler.splitVerses
  rw [hsplit]
  simp only [List.map_cons, List.map_nil, strings.TrimSuffix, HasSuffix_no_marker _ hno]
  rfl

theorem Join_singleton (s sep : String) : strings.Join [s] sep = s := by
  unfold strings.Join
  simp [List.intercalate]

/-- C16 (the claim fails): page 4611686018427387905 (at least 2) with limit 4 makes the Go
product (page-1)*limit wrap around to 0, and the handler answers with the whole normalised
text instead of the empty-text response. -/
theorem C16_page_product_wraps :
    (2 : Int) ≤ 4611686018427387905 ∧ (1 : Int) ≤ 4
      ∧ strconv.Atoi "4611686018427387905" = (4611686018427387905, none)
      ∧ (Handler.GetSongText (NewService pg) (textRequest "1" "4611686018427387905" "4")
            storeABC).1
          = respondString 200 "A\n\nB\n\nC" := by
  decide

/-- C16 (amended): for every stored text the verse list computed by the Get-text handler has
exactly one element, the normalised text; hence for every limit >= 1 page 1 returns the
whole normalised text, and every page >= 2 for which (page-1)*limit does not overflow
returns the empty-text response. -/
theorem C16_single_verse (t : String) (page limit : Int) (hl : 1 ≤ limit)
    (hlr : InIntRange limit) :
    Handler.splitVerses (strings.ReplaceAll t "\\n" "\n") = [strings.ReplaceAll t "\\n" "\n"]
      ∧ Handler.textPage t 1 limit = respondString 200 (strings.ReplaceAll t "\\n" "\n")
      ∧ (2 ≤ page → InIntRange ((page - 1) * limit) →
          Handler.textPage t page limit = respondH 200 [("text", "")]) := by
  refine ⟨splitVerses_normalised t, ?_, ?_⟩
  · unfold Handler.textPage
    simp only [splitVerses_normalised t, List.length_singleton]
    have h0 : wrapInt (wrapInt (1 - 1) * limit) = 0 := by
      have : wrapInt (1 - 1) = 0 := by decide
      rw [this, zero_mul]
      decide
    rw [h0, zero_add, wrapInt_of_inRange _ hlr]
    rw [if_neg (by decide)]
    have hstop : (if limit > ((1 : Nat) : Int) then ((1 : Nat) : Int) else limit) = 1 := by
      split_ifs with h
      · rfl
      · push_cast at h; omega
    simp only [hstop, sliceRange]
    have hb : (0 : Int) ≤ 0 ∧ (0 : Int) ≤ 1
        ∧ (1 : Int) ≤ (([strings.ReplaceAll t "\\n" "\n"].length : Nat) : Int) :=
      ⟨le_refl _, by decide, by simp⟩
    rw [if_pos hb]
    simp [Join_singleton, StatusOK]
  · intro hp hr
    have hpm : InIntRange (page - 1) := by
      unfold InIntRange minInt maxInt at *
      constructor
      · omega
      · nlinarith
    unfold Handler.textPage
    simp only [splitVerses_normalised t, List.length_singleton]
    rw [wrapInt_of_inRange _ hpm, wrapInt_of_inRange _ hr]
    have hge : (page - 1) * limit ≥ ((1 : Nat) : Int) := by
      push_cast; nlinarith
    rw [if_pos hge]
    rfl

/-- C16 (amended) at a concrete text: the A, B, C text with limit 1 and page 2. -/
theorem C16_single_verse_witness :
    Handler.splitVerses (strings.ReplaceAll "A\\n\\nB\\n\\nC" "\\n" "\n")
        = [strings.ReplaceAll "A\\n\\nB\\n\\nC" "\\n" "\n"]
      ∧ Handler.textPage "A\\n\\nB\\n\\nC" 1 1
        = respondString 200 (strings.ReplaceAll "A\\n\\nB\\n\\nC" "\\n" "\n")
      ∧ ((2 : Int) ≤ 2 → InIntRange (((2 : Int) - 1) * 1) →
          Handler.textPage "A\\n\\nB\\n\\nC" 2 1 = respondH 200 [("text", "")]) :=
  C16_single_verse "A\\n\\nB\\n\\nC" 2 1 (by decide) (by decide)

/-! ## Slice bounds of the text pagination -/

/-- C17: for page >= 1 and limit >= 0 (both Go `int` values) such that (page-1)*limit + limit
does not overflow, whenever the Get-text handler reaches the slice expression, that is
whenever start is below the number of verses, the bounds satisfy
0 <= start <= end <= len(verses); the handler therefore writes a response and never
panics. -/
theorem C17_slice_bounds_safe (text : String) (page limit : Int) (hp : 1 ≤ page)
    (hl : 0 ≤ limit) (hpr : InIntRange page)
    (hov : InIntRange ((page - 1) * limit + limit)) :
    let verses := Handler.splitVerses (strings.ReplaceAll text "\\n" "\n")
    let start := wrapInt (wrapInt (page - 1) * limit)
    let stop := wrapInt (start + limit)
    let stop1 := if stop > (verses.length : Int) then (verses.length : Int) else stop
    (start < (verses.length : Int) →
        0 ≤ start ∧ start ≤ stop1 ∧ stop1 ≤ (verses.length : Int)
          ∧ (sliceRange verses start stop1).isSome = true)
      ∧ ∃ r, Handler.textPage text page limit = .responded r := by
  intro verses start stop stop1
  have hpm : InIntRange (page - 1) := by
    unfold InIntRange minInt maxInt at *
    omega
  have hnn : 0 ≤ (page - 1) * limit := mul_nonneg (by omega) hl
  have hsr : InIntRange ((page - 1) * limit) := by
    unfold InIntRange minInt maxInt at *
    omega
  have hstart : start = (page - 1) * limit := by
    simp only [start]
    rw [wrapInt_of_inRange _ hpm, wrapInt_of_inRange _ hsr]
  have hstop : stop = (page - 1) * limit + limit := by
    simp only [stop]
    rw [hstart, wrapInt_of_inRange _ hov]
  have hbounds : start < (verses.length : Int) →
      0 ≤ start ∧ start ≤ stop1 ∧ stop1 ≤ (verses.length : Int) := by
    intro hlt
    simp only [stop1]
    split_ifs with hgt
    · exact ⟨by omega, by omega, le_refl _⟩
    · exact ⟨by omega, by omega, by omega⟩
  refine ⟨fun hlt => ?_, ?_⟩
  · obtain ⟨h1, h2, h3⟩ := hbounds hlt
    refine ⟨h1, h2, h3, ?_⟩
    unfold sliceRange
    rw [if_pos ⟨h1, h2, h3⟩]
    rfl
  · show ∃ r, (if start ≥ (verses.length : Int) then respondH StatusOK [("text", "")]
        else match sliceRange verses start stop1 with
          | none => Outcome.panicked "slice bounds out of range" "text/plain; charset=utf-8"
          | some vs => respondString StatusOK (strings.Join vs "\n\n")) = .responded r
    split_ifs with hge
    · exact ⟨_, rfl⟩
    · obtain ⟨h1, h2, h3⟩ := hbounds (by omega)
      unfold sliceRange
      rw [if_pos ⟨h1, h2, h3⟩]
      exact ⟨_, rfl⟩

/-- C17 at a concrete request: page 1 with limit 0 on the A, B, C text. -/
theorem C17_slice_bounds_safe_witness :
    ∃ r, Handler.textPage "A\\n\\nB\\n\\nC" 1 0 = .responded r :=
  (C17_slice_bounds_safe "A\\n\\nB\\n\\nC" 1 0 (by decide) (by decide) (by decide)
    (by decide)).2

/-- C18: the request page=0, limit=5 passes parsing; whatever the text, start is -5, both
guards are passed and the slice expression is evaluated with a negative start: the handler
panics with "slice bounds out of range" instead of answering 400 or the empty text.  On
the one-song store the service has been called and the panic leaves the handler; the
engine's recovery turns it into status 500 with an empty body, under the content type
`text/plain` that line 177 had already set. -/
theorem C18_nonpositive_page_panics :
    (∀ text : String, Handler.textPage text 0 5
        = .panicked "slice bounds out of range" "text/plain; charset=utf-8")
      ∧ wrapInt (wrapInt (0 - 1) * 5) = -5
      ∧ Handler.GetSongText (NewService pg) (textRequest "1" "0" "5") storeABC
        = (.panicked "slice bounds out of range" "text/plain; charset=utf-8", storeABC)
      ∧ ServeHTTP (Handler.InitRoutes (NewService pg))
          ⟨"GET", "/songs/1/text", [("page", "0"), ("limit", "5")], none⟩ storeABC
        = (.outcome (.responded ⟨500, "text/plain; charset=utf-8", .text ""⟩), storeABC) := by
  refine ⟨?_, by decide, by decide, by decide⟩
  intro text
  unfold Handler.textPage
  have h1 : wrapInt (wrapInt (0 - 1) * 5) = -5 := by decide
  have h2 : wrapInt (-5 + 5) = 0 := by decide
  simp only [h1, h2]
  have hlen : (0 : Int) ≤ ((Handler.splitVerses (strings.ReplaceAll text "\\n" "\n")).length : Int) :=
    Int.natCast_nonneg _
  rw [if_neg (by omega), if_neg (by omega)]
  unfold sliceRange
  rw [if_neg (by omega)]

/-! ## Assembly of the UPDATE statement -/

/-- C20: for a partial song with k >= 1 non-empty fields, `UpdateSong` hands the database
handle the statement UPDATE songs SET c1 = $1, ..., ck = $k WHERE id = $(k+1), where c1..ck
are the columns of the non-empty fields in the order group_name, song, release_date, text,
lyrics, link, together with k+1 arguments: the values of c1..ck followed by the id. -/
theorem C20_update_statement (id : Int) (song : Song)
    (hk : 1 ≤ (nonEmptyColumns song).length) :
    (∀ (σ : Type) (db : DB σ) (st : σ),
        SongPostgres.UpdateSong db id song st =
          match db.Exec
              (.updateSongs (numbered 1 (nonEmptyColumns song))
                (((nonEmptyColumns song).length : Int) + 1))
              ((nonEmptyColumns song).map (fun p => Value.str p.2) ++ [.int id]) st with
          | (.error err, st1) => (some err, st1)
          | (.ok _, st1) => (none, st1))
      ∧ (Stmt.updateSongs (numbered 1 (nonEmptyColumns song))
            (((nonEmptyColumns song).length : Int) + 1)).toSQL
          = "UPDATE songs SET "
            ++ strings.Join ((numbered 1 (nonEmptyColumns song)).map
                (fun a => a.column ++ " = $" ++ fmtInt a.placeholder)) ", "
            ++ " WHERE id = $" ++ fmtInt (((nonEmptyColumns song).length : Int) + 1)
      ∧ ((nonEmptyColumns song).map (fun p => Value.str p.2) ++ [Value.int id]).length
          = (nonEmptyColumns song).length + 1 := by
  refine ⟨?_, rfl, by simp⟩
  intro σ db st
  obtain ⟨sid, g, s, rd, t, l, lk⟩ := song
  by_cases h1 : g = "" <;> by_cases h2 : s = "" <;> by_cases h3 : rd = "" <;>
  by_cases h4 : t = "" <;> by_cases h5 : l = "" <;> by_cases h6 : lk = "" <;>
  simp [SongPostgres.UpdateSong, SongPostgres.updateBuilder,
    SongPostgres.UpdateBuilder.addField, nonEmptyColumns, songColumns, numbered,
    h1, h2, h3, h4, h5, h6, wrapInt] at hk ⊢

/-- C20 at a concrete partial song with two non-empty fields, title and lyrics: the text
of the statement. -/
theorem C20_update_statement_witness :
    (Stmt.updateSongs (numbered 1 (nonEmptyColumns ⟨0, "", "T", "", "", "L", ""⟩))
        (((nonEmptyColumns ⟨0, "", "T", "", "", "L", ""⟩).length : Int) + 1)).toSQL
      = "UPDATE songs SET song = $1, lyrics = $2 WHERE id = $3" :=
  (C20_update_statement 7 ⟨0, "", "T", "", "", "L", ""⟩ (by decide)).2.1.trans (by decide)


/-! ## The Update handler and the required fields -/

theorem ShouldBindJSON_ok_nonempty (c : Context) (song : Song)
    (h : binding.ShouldBindJSON c = .ok song) :
    song.GroupName ≠ "" ∧ song.SongName ≠ "" := by
  unfold binding.ShouldBindJSON at h
  cases hb : c.Body with
  | none => simp [hb] at h
  | some v =>
    simp only [hb] at h
    cases hu : binding.Unmarshal v binding.zeroSong with
    | error e => simp [hu] at h
    | ok decoded =>
      simp only [hu] at h
      by_cases hg : decoded.GroupName = ""
      · simp [binding.validate, hg] at h
      · by_cases hs : decoded.SongName = ""
        · simp [binding.validate, hg, hs] at h
        · simp only [binding.validate, hg, hs, if_false, Except.ok.injEq] at h
          rw [← h]
          exact ⟨hg, hs⟩

/-- With non-empty group and title the statement starts with the assignments of
`group_name` and `song`, bound to these two values. -/
theorem updateBuilder_leading (song : Song) (hg : song.GroupName ≠ "")
    (hs : song.SongName ≠ "") :
    (SongPostgres.updateBuilder song).setClauses.take 2
        = [⟨"group_name", 1⟩, ⟨"song", 2⟩]
      ∧ (SongPostgres.updateBuilder song).values.take 2
        = [.str song.GroupName, .str song.SongName]
      ∧ (SongPostgres.updateBuilder song).setClauses.length ≠ 0 := by
  obtain ⟨sid, g, s, rd, t, l, lk⟩ := song
  simp only at hg hs
  by_cases h3 : rd = "" <;> by_cases h4 : t = "" <;> by_cases h5 : l = "" <;>
  by_cases h6 : lk = "" <;>
  simp [SongPostgres.updateBuilder, SongPostgres.UpdateBuilder.addField, hg, hs, h3, h4, h5,
    h6, wrapInt]

/-- C19: a PUT body in which group or song is absent or empty is answered 400 without a
call of the service.  Every run of the Update handler either answers 400 with the state
untouched or calls the service exactly once, with a song whose group name and title are
non-empty; for such a song storage `UpdateSong` assigns `group_name = $1` and `song = $2`
with these values and does not take the no-fields branch. -/
theorem C19_update_requires_group_and_song {σ : Type} (services : Service σ) (c : Context)
    (st : σ) :
    (∀ members, c.Body = some (.object members) →
        (binding.AbsentOrEmpty .GroupName members ∨ binding.AbsentOrEmpty .SongName members) →
        ∃ msg, Handler.UpdateSong services c st = (respondH 400 [("error", msg)], st))
      ∧ ((∃ msg, Handler.UpdateSong services c st = (respondH 400 [("error", msg)], st))
        ∨ ∃ id song, song.GroupName ≠ "" ∧ song.SongName ≠ ""
          ∧ Handler.UpdateSong services c st =
              (match services.UpdateSong id song st with
               | (some _, st1) => (respondH 500 [("error", "Failed to update song")], st1)
               | (none, st1) => (respondH 200 [("message", "Song updated successfully")], st1))
          ∧ (SongPostgres.updateBuilder song).setClauses.take 2
              = [⟨"group_name", 1⟩, ⟨"song", 2⟩]
          ∧ (SongPostgres.updateBuilder song).values.take 2
              = [.str song.GroupName, .str song.SongName]
          ∧ (SongPostgres.updateBuilder song).setClauses.length ≠ 0) := by
  constructor
  · intro members hbody h
    obtain ⟨e, he⟩ := ShouldBindJSON_error_of_empty c members hbody h
    unfold Handler.UpdateSong
    rcases strconv.Atoi (c.Param "id") with ⟨id, _ | e1⟩
    · simp only [he]
      exact ⟨_, rfl⟩
    · exact ⟨_, rfl⟩
  · unfold Handler.UpdateSong
    rcases strconv.Atoi (c.Param "id") with ⟨id, _ | e1⟩
    · cases hb : binding.ShouldBindJSON c with
      | error e => exact Or.inl ⟨_, rfl⟩
      | ok song =>
        obtain ⟨hg, hs⟩ := ShouldBindJSON_ok_nonempty c song hb
        obtain ⟨h1, h2, h3⟩ := updateBuilder_leading song hg hs
        exact Or.inr ⟨id, song, hg, hs, rfl, h1, h2, h3⟩
    · exact Or.inl ⟨_, rfl⟩

/-- C19 at a concrete request: a PUT body that carries only a title. -/
theorem C19_update_requires_group_and_song_witness :
    ∃ msg, Handler.UpdateSong (NewService pg)
        (putRequest "1" [("song", .string "New title")]) storeABC
      = (respondH 400 [("error", msg)], storeABC) :=
  (C19_update_requires_group_and_song (NewService pg)
    (putRequest "1" [("song", .string "New title")]) storeABC).1
    [("song", .string "New title")] rfl (Or.inl (Or.inl rfl))

end MusicAPI
